import Mathlib

/-!
Shallow embedding of the vdex CSV-ingestion core (crates `veekun` and `vdex`)
and proofs about it.

Conventions of the embedding:

* Machine integers are `Nat` (unsigned) or `Int` (signed); where the source
  can overflow or wrap, the reduction `% 2 ^ w` is written explicitly,
  following the release-profile semantics of the source language (integer
  overflow wraps).  Checked operations (`checked_sub`) are modelled by
  `Option`.
* Out-of-bounds indexing and arithmetic that aborts the process are modelled
  by a distinct `crash` outcome where a claim depends on them.
* Fallible operations return `Except`; hash maps are modelled as functions
  into `Option`; vectors as lists; fixed-size arrays either as lists of the
  fixed length or as total functions on the index range.
* Field decoding is generic exactly where the source is generic: the blanket
  implementation of `FromVeekunField` becomes `from_veekun_field`,
  parametrised by the intermediate parser and the `from_veekun` projection.
-/

namespace Vdex

/-- Value of one decimal digit character. -/
def digitVal (c : Char) : Option Nat :=
  if '0' ≤ c ∧ c ≤ '9' then some (c.toNat - '0'.toNat) else none

/-- Base-10 accumulation over a character list. -/
def parseDigits : List Char → Nat → Option Nat
  | [], acc => some acc
  | c :: cs, acc =>
    match digitVal c with
    | some d => parseDigits cs (acc * 10 + d)
    | none => none

/-- A non-empty all-digit character list as a number. -/
def parseDigitsNE (cs : List Char) : Option Nat :=
  match cs with
  | [] => none
  | _ => parseDigits cs 0

/-- Modelled from the spec: the standard base-10 parsing rules of the host
language's unsigned integer `FromStr` (library code outside this
repository), restricted to the plain digit strings the data files use: one
or more decimal digits parse, anything else fails (sign prefixes are not
modelled). -/
def parseNatRaw (s : String) : Option Nat :=
  parseDigitsNE s.data

/-- Modelled from the spec: base-10 parsing for a signed integer, with an
optional leading minus sign. -/
def parseIntRaw (s : String) : Option Int :=
  match s.data with
  | '-' :: cs => (parseDigitsNE cs).map (fun n => -(n : Int))
  | cs => (parseDigitsNE cs).map (fun n => (n : Int))

/-- `u8` parsing: out-of-range values are parse errors. -/
def parseU8 (s : String) : Option Nat :=
  match parseNatRaw s with
  | some n => if n < 256 then some n else none
  | none => none

/-- `u16` parsing (range `0 ≤ n < 2^16`). -/
def parseU16 (s : String) : Option Nat :=
  match parseNatRaw s with
  | some n => if n < 65536 then some n else none
  | none => none

/-- `usize` parsing (range `0 ≤ n < 2^64`). -/
def parseUsize (s : String) : Option Nat :=
  match parseNatRaw s with
  | some n => if n < 18446744073709551616 then some n else none
  | none => none

/-- `i8` parsing (range `-128 ≤ n < 128`). -/
def parseI8 (s : String) : Option Int :=
  match parseIntRaw s with
  | some n => if -128 ≤ n ∧ n < 128 then some n else none
  | none => none

/-- `field.chars().all(char::is_whitespace)` — true for the empty string. -/
def allWhitespace (s : String) : Bool :=
  s.data.all Char.isWhitespace

/-- `veekun::repr::VeekunError<V>`: either the parsed value was not a valid
domain value (`Value`), or the field could not be parsed (`Parse`).  The
payload of `Parse` (the intermediate `FromStr` error) carries no information
used by the loaders and is dropped. -/
inductive VeekunError (V : Type) where
  | value (v : V)
  | parse
  deriving DecidableEq

/-- The blanket implementation of
`veekun::repr::FromVeekunField::from_veekun_field` for `FromVeekun` types:
parse the field to the intermediate value, fall back to the default only
when parsing fails on an all-whitespace field, and apply the `from_veekun`
projection, distinguishing `Parse` errors from `Value` errors. -/
def from_veekun_field {V T : Type} (parse : String → Option V)
    (from_veekun : V → Option T) (field : String) (default : Option T) :
    Except (VeekunError V) T :=
  match parse field with
  | none =>
    match default with
    | some d => if allWhitespace field then .ok d else .error .parse
    | none => .error .parse
  | some value =>
    match from_veekun value with
    | some t => .ok t
    | none => .error (.value value)

/-- `veekun::repr::VeekunOption<T>`: an all-whitespace field is domain
`None`; otherwise the wrapped decoder runs (with the unwrapped default). -/
def veekun_option {T : Type}
    (dec : String → Option T → Except (VeekunError Int) T) :
    String → Option (Option T) → Except (VeekunError Int) (Option T) :=
  fun field default =>
    if allWhitespace field then .ok none
    else (dec field (default.bind id)).map some

/-- The boxed payload of `veekun::csv::Error::Veekun` (`Box<dyn StdError>`):
a `VeekunError` whose intermediate value is widened to `Int`, or a
`MiscError` wrapping a message. -/
inductive BoxError where
  | value (v : Int)
  | parse
  | misc (msg : String)
  deriving DecidableEq

/-- Widening of a `VeekunError` over a `Nat` intermediate into the boxed
error payload. -/
def boxNat : VeekunError Nat → BoxError
  | .value v => .value (v : Int)
  | .parse => .parse

/-- Widening of a `VeekunError` over an `Int` intermediate into the boxed
error payload. -/
def boxInt : VeekunError Int → BoxError
  | .value v => .value v
  | .parse => .parse

/-- Opaque stand-in for `csv::Error` (the raw-record reader's own errors). -/
structure CsvError where
  code : Nat
  deriving DecidableEq

/-- `veekun::csv::Error`: reader error, record-too-short, or a boxed
representation error with provenance (line, field index). -/
inductive Error where
  | csv (e : CsvError)
  | recordLength (line : Option Nat) (index : Nat)
  | veekun (line : Option Nat) (field : Nat) (error : BoxError)
  deriving DecidableEq

/-- A raw CSV record: the ordered fields, and the source line if known
(`csv::StringRecord` plus its `position().line()`). -/
structure StringRecord where
  fields : List String
  pos : Option Nat
  deriving DecidableEq

/-- `veekun::csv::get_line`. -/
def get_line (r : StringRecord) : Option Nat := r.pos

/-- `veekun::csv::get_field`: the field string, or a `RecordLength` error. -/
def get_field (r : StringRecord) (index : Nat) : Except Error String :=
  match r.fields[index]? with
  | some s => .ok s
  | none => .error (.recordLength (get_line r) index)

/-- A field decoder bundled with its error boxing, as used by
`veekun::csv::from_field` /`from_option_field` for one target type. -/
def FieldDec (T : Type) : Type :=
  String → Option T → Except BoxError T

/-- Builds the `FieldDec` of a `FromVeekun` type with `Nat` intermediate. -/
def decNat {T : Type} (parse : String → Option Nat)
    (from_veekun : Nat → Option T) : FieldDec T :=
  fun field default =>
    match from_veekun_field parse from_veekun field default with
    | .ok t => .ok t
    | .error e => .error (boxNat e)

/-- Builds the `FieldDec` of a `FromVeekun` type with `Int` intermediate. -/
def decInt {T : Type} (parse : String → Option Int)
    (from_veekun : Int → Option T) : FieldDec T :=
  fun field default =>
    match from_veekun_field parse from_veekun field default with
    | .ok t => .ok t
    | .error e => .error (boxInt e)

/-- `FieldDec` of the `VeekunOption` wrapper around an `Int`-intermediate
decoder (the loaders only ever use it with no default). -/
def decOpt {T : Type} (parse : String → Option Int)
    (from_veekun : Int → Option T) : FieldDec (Option T) :=
  fun field default =>
    match veekun_option (fun f d =>
        match from_veekun_field parse from_veekun f d with
        | .ok t => .ok t
        | .error e => .error e) field default with
    | .ok t => .ok t
    | .error e => .error (boxInt e)

/-- `FieldDec` of the `VeekunOption` wrapper over a `Nat` intermediate. -/
def decOptNat {T : Type} (parse : String → Option Nat)
    (from_veekun : Nat → Option T) : FieldDec (Option T) :=
  fun field default =>
    if allWhitespace field then .ok none
    else
      match from_veekun_field parse from_veekun field (default.bind id) with
      | .ok t => .ok (some t)
      | .error e => .error (boxNat e)

/-- `FieldDec` of `VeekunString`: never fails, returns the raw field. -/
def decString : FieldDec String :=
  fun field _ => .ok field

/-- `veekun::csv::from_field`: fetch the field and decode it, no default. -/
def from_field {T : Type} (dec : FieldDec T) (r : StringRecord)
    (index : Nat) : Except Error T :=
  match get_field r index with
  | .error e => .error e
  | .ok field =>
    match dec field none with
    | .ok t => .ok t
    | .error e => .error (.veekun (get_line r) index e)

/-- `veekun::csv::from_option_field`: fetch the field and decode it with a
default. -/
def from_option_field {T : Type} (dec : FieldDec T) (r : StringRecord)
    (index : Nat) (default : T) : Except Error T :=
  match get_field r index with
  | .error e => .error e
  | .ok field =>
    match dec field (some default) with
    | .ok t => .ok t
    | .error e => .error (.veekun (get_line r) index e)

/-- `u16::checked_sub` and friends. -/
def checked_sub (a b : Nat) : Option Nat :=
  if b ≤ a then some (a - b) else none

/-- The loop body of the blanket `FromCsv` implementation for
`FromCsvIncremental` types: fold `load_csv_record` over the record stream in
order, surfacing the first reader error or load error. -/
def from_csv_go {S : Type} (load : S → StringRecord → Except Error S)
    (s : S) : List (Except CsvError StringRecord) → Except Error S
  | [] => .ok s
  | .error e :: _ => .error (.csv e)
  | .ok r :: rest =>
    match load s r with
    | .error e => .error e
    | .ok s2 => from_csv_go load s2 rest

/-- The blanket `FromCsv` implementation for `FromCsvIncremental` types:
start from `from_empty_csv` and fold. -/
def from_csv {S : Type} (empty : S)
    (load : S → StringRecord → Except Error S)
    (rows : List (Except CsvError StringRecord)) : Except Error S :=
  from_csv_go load empty rows

/-- Splitting a character list on the dash separator (`str::split('-')`):
the empty input yields one empty word. -/
def splitDash : List Char → List (List Char)
  | [] => [[]]
  | c :: rest =>
    if c = '-' then [] :: splitDash rest
    else
      match splitDash rest with
      | w :: ws => (c :: w) :: ws
      | [] => [[c]]

/-- `veekun::to_pascal_case`: split on dashes, uppercase each word's first
character (ASCII model of `char::to_uppercase`) and concatenate. -/
def to_pascal_case (s : String) : String :=
  String.mk (List.flatten ((splitDash s.data).map (fun word =>
    match word with
    | [] => []
    | c :: cs => c.toUpper :: cs)))

/-- `vdex::pokemon::POKEMON_COUNT`. -/
def POKEMON_COUNT : Nat := 673

/-- `vdex::pokemon::SPECIES_COUNT`. -/
def SPECIES_COUNT : Nat := 649

/-- `vdex::moves::MOVE_COUNT`. -/
def MOVE_COUNT : Nat := 559

/-- `vdex::items::berries::BERRY_COUNT`. -/
def BERRY_COUNT : Nat := 64

/-- `PokemonId::from_veekun`: subtract one (checked, defaulting to zero) and
accept the result below `POKEMON_COUNT`.  The id itself is the wrapped
`u16`. -/
def PokemonId.from_veekun (value : Nat) : Option Nat :=
  let id := match checked_sub value 1 with
    | some i => i
    | none => 0
  if id < POKEMON_COUNT then some id else none

/-- `SpeciesId::from_veekun`: same shape with `SPECIES_COUNT`. -/
def SpeciesId.from_veekun (value : Nat) : Option Nat :=
  let id := match checked_sub value 1 with
    | some i => i
    | none => 0
  if id < SPECIES_COUNT then some id else none

/-- `MoveId::from_veekun`: same shape with `MOVE_COUNT`. -/
def MoveId.from_veekun (value : Nat) : Option Nat :=
  let id := match checked_sub value 1 with
    | some i => i
    | none => 0
  if id < MOVE_COUNT then some id else none

/-- `BerryId::from_veekun`: same shape with `BERRY_COUNT` (over `u8`). -/
def BerryId.from_veekun (value : Nat) : Option Nat :=
  let id := match checked_sub value 1 with
    | some i => i
    | none => 0
  if id < BERRY_COUNT then some id else none

/-- `ItemId::from_veekun`: zero is the none sentinel, anything else is kept
verbatim. -/
def ItemId.from_veekun (value : Nat) : Option Nat :=
  if value = 0 then none else some value

/-! ### Enumerated domain types

Each `#[EnumRepr]` enum becomes an inductive with a `repr`/`from_repr` pair
written out from its declaration (the enum-representation capability of the
spec); `from_veekun` is transcribed from the enum's `FromVeekun` impl. -/

/-- `vdex::versions::Generation`. -/
inductive Generation where
  | I | II | III | IV | V
  deriving DecidableEq

/-- `Generation::from_repr` (discriminants 0–4 in declaration order). -/
def Generation.from_repr (x : Nat) : Option Generation :=
  match x with
  | 0 => some .I
  | 1 => some .II
  | 2 => some .III
  | 3 => some .IV
  | 4 => some .V
  | _ => none

/-- `Generation::from_veekun`: `value.checked_sub(1).and_then(from_repr)`. -/
def Generation.from_veekun (value : Nat) : Option Generation :=
  (checked_sub value 1).bind Generation.from_repr

/-- `vdex::types::Type` (renamed: `Type` is reserved in Lean). -/
inductive Typ where
  | Normal | Fighting | Flying | Poison | Ground | Rock | Bug | Ghost
  | Steel | Fire | Water | Grass | Electric | Psychic | Ice | Dragon | Dark
  deriving DecidableEq

/-- `Type::from_repr` (discriminants 0–16 in declaration order). -/
def Typ.from_repr (x : Nat) : Option Typ :=
  match x with
  | 0 => some .Normal
  | 1 => some .Fighting
  | 2 => some .Flying
  | 3 => some .Poison
  | 4 => some .Ground
  | 5 => some .Rock
  | 6 => some .Bug
  | 7 => some .Ghost
  | 8 => some .Steel
  | 9 => some .Fire
  | 10 => some .Water
  | 11 => some .Grass
  | 12 => some .Electric
  | 13 => some .Psychic
  | 14 => some .Ice
  | 15 => some .Dragon
  | 16 => some .Dark
  | _ => none

/-- `Type::from_veekun`: `value.checked_sub(1).and_then(from_repr)`. -/
def Typ.from_veekun (value : Nat) : Option Typ :=
  (checked_sub value 1).bind Typ.from_repr

/-- `vdex::moves::Target`. -/
inductive Target where
  | SpecificMove | SelectedPokemonReuseStolen | Ally | UsersField
  | UserOrAlly | OpponentsField | User | RandomOpponent | AllOtherPokemon
  | SelectedPokemon | AllOpponents | EntireField
  deriving DecidableEq

/-- `Target::from_repr` (discriminants 0–11 in declaration order). -/
def Target.from_repr (x : Nat) : Option Target :=
  match x with
  | 0 => some .SpecificMove
  | 1 => some .SelectedPokemonReuseStolen
  | 2 => some .Ally
  | 3 => some .UsersField
  | 4 => some .UserOrAlly
  | 5 => some .OpponentsField
  | 6 => some .User
  | 7 => some .RandomOpponent
  | 8 => some .AllOtherPokemon
  | 9 => some .SelectedPokemon
  | 10 => some .AllOpponents
  | 11 => some .EntireField
  | _ => none

/-- `Target::from_veekun`: `value.checked_sub(1).and_then(from_repr)`. -/
def Target.from_veekun (value : Nat) : Option Target :=
  (checked_sub value 1).bind Target.from_repr

/-- `vdex::moves::DamageClass`. -/
inductive DamageClass where
  | NonDamaging | Physical | Special
  deriving DecidableEq

/-- `DamageClass::from_repr` (discriminants 0–2). -/
def DamageClass.from_repr (x : Nat) : Option DamageClass :=
  match x with
  | 0 => some .NonDamaging
  | 1 => some .Physical
  | 2 => some .Special
  | _ => none

/-- `DamageClass::from_veekun`: `value.checked_sub(1).and_then(from_repr)`. -/
def DamageClass.from_veekun (value : Nat) : Option DamageClass :=
  (checked_sub value 1).bind DamageClass.from_repr

/-- `vdex::moves::BattleStyle`. -/
inductive BattleStyle where
  | Attack | Defense | Support
  deriving DecidableEq

/-- `BattleStyle::from_repr` (discriminants 0–2). -/
def BattleStyle.from_repr (x : Nat) : Option BattleStyle :=
  match x with
  | 0 => some .Attack
  | 1 => some .Defense
  | 2 => some .Support
  | _ => none

/-- `BattleStyle::from_veekun`: `value.checked_sub(1).and_then(from_repr)`. -/
def BattleStyle.from_veekun (value : Nat) : Option BattleStyle :=
  (checked_sub value 1).bind BattleStyle.from_repr

/-- `vdex::pokemon::EvolutionTrigger` (discriminants 1–4). -/
inductive EvolutionTrigger where
  | LevelUp | Trade | UseItem | Shed
  deriving DecidableEq

/-- `EvolutionTrigger::from_repr`, also its `from_veekun`. -/
def EvolutionTrigger.from_veekun (value : Nat) : Option EvolutionTrigger :=
  match value with
  | 1 => some .LevelUp
  | 2 => some .Trade
  | 3 => some .UseItem
  | 4 => some .Shed
  | _ => none

/-- `vdex::pokemon::Gender` (discriminants 1–3). -/
inductive Gender where
  | Female | Male | Genderless
  deriving DecidableEq

/-- `Gender::from_repr`, also its `from_veekun`. -/
def Gender.from_veekun (value : Nat) : Option Gender :=
  match value with
  | 1 => some .Female
  | 2 => some .Male
  | 3 => some .Genderless
  | _ => none

/-- `vdex::natures::Nature` (25 variants, discriminants 0–24 in declaration
order). -/
inductive Nature where
  | Hardy | Lonely | Brave | Adamant | Naughty | Bold | Docile | Relaxed
  | Impish | Lax | Timid | Hasty | Serious | Jolly | Naive | Modest | Mild
  | Quiet | Bashful | Rash | Calm | Gentle | Sassy | Careful | Quirky
  deriving DecidableEq

/-- `Nature::repr` (declaration order). -/
def Nature.repr (n : Nature) : Nat :=
  match n with
  | .Hardy => 0
  | .Lonely => 1
  | .Brave => 2
  | .Adamant => 3
  | .Naughty => 4
  | .Bold => 5
  | .Docile => 6
  | .Relaxed => 7
  | .Impish => 8
  | .Lax => 9
  | .Timid => 10
  | .Hasty => 11
  | .Serious => 12
  | .Jolly => 13
  | .Naive => 14
  | .Modest => 15
  | .Mild => 16
  | .Quiet => 17
  | .Bashful => 18
  | .Rash => 19
  | .Calm => 20
  | .Gentle => 21
  | .Sassy => 22
  | .Careful => 23
  | .Quirky => 24

/-- `Nature::COUNT`. -/
def Nature.COUNT : Nat := 25

/-- `Nature::from_veekun` (the explicit 25-case permutation from the
source). -/
def Nature.from_veekun (value : Nat) : Option Nature :=
  match value with
  | 1 => some .Hardy
  | 2 => some .Bold
  | 3 => some .Modest
  | 4 => some .Calm
  | 5 => some .Timid
  | 6 => some .Lonely
  | 7 => some .Docile
  | 8 => some .Mild
  | 9 => some .Gentle
  | 10 => some .Hasty
  | 11 => some .Adamant
  | 12 => some .Impish
  | 13 => some .Bashful
  | 14 => some .Careful
  | 15 => some .Rash
  | 16 => some .Jolly
  | 17 => some .Naughty
  | 18 => some .Lax
  | 19 => some .Quirky
  | 20 => some .Naive
  | 21 => some .Brave
  | 22 => some .Relaxed
  | 23 => some .Quiet
  | 24 => some .Sassy
  | 25 => some .Serious
  | _ => none

/-- `vdex::items::berries::ContestType` (discriminants 0–4). -/
inductive ContestType where
  | Cool | Tough | Cute | Beauty | Smart
  deriving DecidableEq

/-- `ContestType::from_veekun` (explicit match from the source). -/
def ContestType.from_veekun (value : Nat) : Option ContestType :=
  match value with
  | 1 => some .Cool
  | 2 => some .Beauty
  | 3 => some .Cute
  | 4 => some .Smart
  | 5 => some .Tough
  | _ => none

/-- `vdex::items::berries::Flavor` (discriminants 0–4). -/
inductive Flavor where
  | Spicy | Sour | Sweet | Dry | Bitter
  deriving DecidableEq

/-- `Flavor::VALUES` (declaration order). -/
def Flavor.VALUES : List Flavor :=
  [.Spicy, .Sour, .Sweet, .Dry, .Bitter]

/-- `impl From<ContestType> for Flavor`
(`Flavor::from_repr(contest.repr()).unwrap()`). -/
def Flavor.fromContest (c : ContestType) : Flavor :=
  match c with
  | .Cool => .Spicy
  | .Tough => .Sour
  | .Cute => .Sweet
  | .Beauty => .Dry
  | .Smart => .Bitter

/-- `Flavor::from_veekun`: decode a `ContestType` and convert. -/
def Flavor.from_veekun (value : Nat) : Option Flavor :=
  (ContestType.from_veekun value).map Flavor.fromContest

/-- `vdex::moves::meta::Category` (discriminants 0–13). -/
inductive Category where
  | Damage | Ailment | NetGoodStats | Heal | DamageAilment | Swagger
  | DamageLower | DamageRaise | DamageHeal | OneHitKO | WholeFieldEffect
  | FieldEffect | ForceSwitch | Unique
  deriving DecidableEq

/-- `Category::from_repr`, also its `from_veekun`. -/
def Category.from_veekun (value : Nat) : Option Category :=
  match value with
  | 0 => some .Damage
  | 1 => some .Ailment
  | 2 => some .NetGoodStats
  | 3 => some .Heal
  | 4 => some .DamageAilment
  | 5 => some .Swagger
  | 6 => some .DamageLower
  | 7 => some .DamageRaise
  | 8 => some .DamageHeal
  | 9 => some .OneHitKO
  | 10 => some .WholeFieldEffect
  | 11 => some .FieldEffect
  | 12 => some .ForceSwitch
  | 13 => some .Unique
  | _ => none

/-- `vdex::moves::meta::Ailment` (`i8` discriminants: `-1..=9`, `12..=15`,
`17..=21`, from the declaration). -/
inductive Ailment where
  | Unknown | NoAilment | Paralysis | Sleep | Freeze | Burn | Poison
  | Confusion | Infatuation | Trap | Nightmare | Torment | Disable | Yawn
  | HealBlock | NoTypeImmunity | LeechSeed | Embargo | PerishSong | Ingrain
  deriving DecidableEq

/-- `Ailment::from_repr`, also its `from_veekun` (the `None` variant is
rendered `NoAilment`). -/
def Ailment.from_veekun (value : Int) : Option Ailment :=
  match value with
  | -1 => some .Unknown
  | 0 => some .NoAilment
  | 1 => some .Paralysis
  | 2 => some .Sleep
  | 3 => some .Freeze
  | 4 => some .Burn
  | 5 => some .Poison
  | 6 => some .Confusion
  | 7 => some .Infatuation
  | 8 => some .Trap
  | 9 => some .Nightmare
  | 12 => some .Torment
  | 13 => some .Disable
  | 14 => some .Yawn
  | 15 => some .HealBlock
  | 17 => some .NoTypeImmunity
  | 18 => some .LeechSeed
  | 19 => some .Embargo
  | 20 => some .PerishSong
  | 21 => some .Ingrain
  | _ => none

/-- `vdex::natures::Stat` (`i8` discriminants `-1..=6`). -/
inductive Stat where
  | HP | Attack | Defense | Speed | SpecialAttack | SpecialDefense
  | Accuracy | Evasion
  deriving DecidableEq

/-- `Stat::repr` (`i8`, starting at `-1`). -/
def Stat.repr (s : Stat) : Int :=
  match s with
  | .HP => -1
  | .Attack => 0
  | .Defense => 1
  | .Speed => 2
  | .SpecialAttack => 3
  | .SpecialDefense => 4
  | .Accuracy => 5
  | .Evasion => 6

/-- `Stat::from_veekun` (the explicit match from the source). -/
def Stat.from_veekun (value : Nat) : Option Stat :=
  match value with
  | 1 => some .HP
  | 2 => some .Attack
  | 3 => some .Defense
  | 4 => some .SpecialAttack
  | 5 => some .SpecialDefense
  | 6 => some .Speed
  | 7 => some .Accuracy
  | 8 => some .Evasion
  | _ => none

/-- The `as usize` cast of an `i8` value (sign-extended, reinterpreted
modulo `2^64`). -/
def i8_as_usize (v : Int) : Nat :=
  ((v % 18446744073709551616 + 18446744073709551616) %
    18446744073709551616).toNat

/-- `vdex::moves::effects::Effect`, represented by its `u16` discriminant;
the valid discriminants are transcribed from the declaration as ranges. -/
structure Effect where
  code : Nat
  deriving DecidableEq

/-- The discriminants declared by the `Effect` enum. -/
def Effect.validRepr (n : Nat) : Bool :=
  (1 ≤ n && n ≤ 12) || n == 14 || (17 ≤ n && n ≤ 21) || (24 ≤ n && n ≤ 55) ||
  (58 ≤ n && n ≤ 61) || n == 63 || (66 ≤ n && n ≤ 74) ||
  (76 ≤ n && n ≤ 96) || (98 ≤ n && n ≤ 110) || (112 ≤ n && n ≤ 131) ||
  n == 133 || (136 ≤ n && n ≤ 141) || (143 ≤ n && n ≤ 157) ||
  (159 ≤ n && n ≤ 163) || (165 ≤ n && n ≤ 264) || (266 ≤ n && n ≤ 333) ||
  (335 ≤ n && n ≤ 338)

/-- `Effect::from_repr`, also its `from_veekun`. -/
def Effect.from_veekun (value : Nat) : Option Effect :=
  if Effect.validRepr value then some ⟨value⟩ else none

/-- `Effect::default` is `Effect::Splash` (discriminant 86). -/
def Effect.default : Effect := ⟨86⟩

/-- Modelled from the spec: `vdex::abilities::Ability` — the module
`src/vdex/src/abilities.rs` is not among the sources, only its uses.  Per
the spec the enum capability converts a small integer code to `some`
instance exactly when the code is recognized, and the repository's own test
suite pins `Ability::Teravolt.repr() == 164`; abilities are modelled as the
codes `1..=164`, represented by their discriminant. -/
structure Ability where
  code : Nat
  deriving DecidableEq

/-- Modelled from the spec: `Ability::from_veekun` accepts exactly the
recognized codes `1..=164`. -/
def Ability.from_veekun (value : Nat) : Option Ability :=
  if 1 ≤ value ∧ value ≤ 164 then some ⟨value⟩ else none

/-- `vdex::items::flags::Flags::from_veekun`: bit positions `1..=8` map to
the single-bit flag `1 << (value - 1)`; flags are their `u8` bit patterns. -/
def ItemFlags.from_veekun (value : Nat) : Option Nat :=
  if 1 ≤ value ∧ value ≤ 8 then some (1 <<< (value - 1)) else none

/-- `vdex::moves::meta::flags::Flags::from_veekun`: bit positions `1..=14`
map to `1 << (value - 1)` over `u16`. -/
def MoveFlags.from_veekun (value : Nat) : Option Nat :=
  if 1 ≤ value ∧ value ≤ 14 then some (1 <<< (value - 1)) else none

/-! ### Field decoders used by the loaders -/

/-- Decoder of a `PokemonId` field. -/
def PokemonId.dec : FieldDec Nat := decNat parseU16 PokemonId.from_veekun

/-- Decoder of a `SpeciesId` field. -/
def SpeciesId.dec : FieldDec Nat := decNat parseU16 SpeciesId.from_veekun

/-- Decoder of a `MoveId` field. -/
def MoveId.dec : FieldDec Nat := decNat parseU16 MoveId.from_veekun

/-- Decoder of an `ItemId` field. -/
def ItemId.dec : FieldDec Nat := decNat parseU16 ItemId.from_veekun

/-- Decoder of a `BerryId` field. -/
def BerryId.dec : FieldDec Nat := decNat parseU8 BerryId.from_veekun

/-- Decoder of a plain `u8` field (blanket `FromVeekun` for `FromStr`). -/
def u8dec : FieldDec Nat := decNat parseU8 some

/-- Decoder of a plain `i8` field. -/
def i8dec : FieldDec Int := decInt parseI8 some

/-- Decoder of a plain `usize` field. -/
def usizeDec : FieldDec Nat := decNat parseUsize some

/-- Outcome of a loader step that can abort the process: success, a
returned error, or a crash (arithmetic overflow trap or out-of-bounds
index). -/
inductive RunResult (S : Type) where
  | ok (s : S)
  | err (e : Error)
  | crash
  deriving DecidableEq

/-- `usize` wrapping subtraction (release-profile semantics), for
subtrahends at most `2^64`. -/
def usize_wrapping_sub (a b : Nat) : Nat :=
  (a + 18446744073709551616 - b) % 18446744073709551616

/-! ### Flag tables (items and moves) -/

/-- The body shared by both flag loaders once the key and flag are decoded:
`self.0.get(&id).map_or(flag, |v| flag | *v)` then `insert`.  The map is a
function from keys to optional accumulated flags. -/
def mergeFlag (st : Nat → Option Nat) (id flag : Nat) : Nat → Option Nat :=
  fun k =>
    if k = id then
      some (match st id with
        | none => flag
        | some v => flag ||| v)
    else st k

/-- `vdex::items::flags::FlagTable::load_csv_record`. -/
def itemFlagLoad (st : Nat → Option Nat) (r : StringRecord) :
    Except Error (Nat → Option Nat) :=
  match from_field ItemId.dec r 0 with
  | .error e => .error e
  | .ok id =>
    match from_field (decNat parseU8 ItemFlags.from_veekun) r 1 with
    | .error e => .error e
    | .ok flag => .ok (mergeFlag st id flag)

/-- `vdex::moves::meta::flags::FlagTable::load_csv_record` (with the
shadow-move guard of the source). -/
def moveFlagLoad (st : Nat → Option Nat) (r : StringRecord) :
    Except Error (Nat → Option Nat) :=
  match from_field MoveId.dec r 0 with
  | .error e => .error e
  | .ok id =>
    if 10000 ≤ id then .ok st
    else
      match from_field (decNat parseU8 MoveFlags.from_veekun) r 1 with
      | .error e => .error e
      | .ok flag => .ok (mergeFlag st id flag)

/-- The decoded `(key, flag)` contribution of an item-flag row, when both
fields decode. -/
def itemRowDec (r : StringRecord) : Option (Nat × Nat) :=
  match from_field ItemId.dec r 0,
      from_field (decNat parseU8 ItemFlags.from_veekun) r 1 with
  | .ok i, .ok f => some (i, f)
  | _, _ => none

/-- The decoded `(key, flag)` contribution of a move-flag row. -/
def moveRowDec (r : StringRecord) : Option (Nat × Nat) :=
  match from_field MoveId.dec r 0,
      from_field (decNat parseU8 MoveFlags.from_veekun) r 1 with
  | .ok i, .ok f => some (i, f)
  | _, _ => none

/-- Folding a list of decoded `(key, flag)` contributions through
`mergeFlag`. -/
def mergeFold (st : Nat → Option Nat) (ps : List (Nat × Nat)) :
    Nat → Option Nat :=
  ps.foldl (fun s p => mergeFlag s p.1 p.2) st

/-- The contributions of a row list at one key, in row order. -/
def flagContribs (ps : List (Nat × Nat)) (key : Nat) : List Nat :=
  ps.filterMap (fun p => if p.1 = key then some p.2 else none)

/-- Bitwise OR of a list of flag values. -/
def orAll (l : List Nat) : Nat :=
  l.foldl (fun a b => a ||| b) 0

/-- The per-key effect of folding a list of flag contributions on top of an
optional already-accumulated value (the shape of the loaders' merge:
the first contribution is stored as is, later ones are ORed in). -/
def accFlags (base : Option Nat) (cs : List Nat) : Option Nat :=
  cs.foldl (fun acc f =>
    some (match acc with
      | none => f
      | some v => f ||| v)) base

/-! ### Move meta and stat-change tables -/

/-- `vdex::moves::CHANGEABLE_STATS`. -/
def CHANGEABLE_STATS : Nat := 7

/-- `vdex::moves::meta::Meta`. -/
structure Meta where
  category : Category
  ailment : Ailment
  hits : Option (Nat × Nat)
  turns : Option (Nat × Nat)
  recoil : Int
  healing : Int
  critical_rate : Int
  ailment_chance : Nat
  flinch_chance : Nat
  stat_chance : Nat
  stat_changes : List Int
  flags : Nat
  deriving DecidableEq

/-- `Meta::default` (derived `Default`). -/
def Meta.default : Meta :=
  { category := .Unique
    ailment := .Unknown
    hits := none
    turns := none
    recoil := 0
    healing := 0
    critical_rate := 0
    ailment_chance := 0
    flinch_chance := 0
    stat_chance := 0
    stat_changes := List.replicate CHANGEABLE_STATS 0
    flags := 0 }

/-- `MetaTable::default`: `MOVE_COUNT` default entries. -/
def MetaTable.default : List Meta :=
  List.replicate MOVE_COUNT Meta.default

/-- `vdex::moves::meta::MetaTable::load_csv_record`. -/
def metaLoad (st : List Meta) (r : StringRecord) :
    Except Error (List Meta) :=
  match from_field MoveId.dec r 0 with
  | .error e => .error e
  | .ok id =>
    if 10000 ≤ id then .ok st
    else
      match from_field (decOptNat parseU8 some) r 3 with
      | .error e => .error e
      | .ok min_hits =>
        match from_field (decOptNat parseU8 some) r 4 with
        | .error e => .error e
        | .ok max_hits =>
          let hits := match min_hits with
            | some mn =>
              match max_hits with
              | some mx => some (mn, mx)
              | none => none
            | none => none
          match from_field (decOptNat parseU8 some) r 5 with
          | .error e => .error e
          | .ok min_turns =>
            match from_field (decOptNat parseU8 some) r 6 with
            | .error e => .error e
            | .ok max_turns =>
              let turns := match min_turns with
                | some mn =>
                  match max_turns with
                  | some mx => some (mn, mx)
                  | none => none
                | none => none
              match from_field (decNat parseU8 Category.from_veekun) r 1 with
              | .error e => .error e
              | .ok category =>
                match from_field (decInt parseI8 Ailment.from_veekun) r 2 with
                | .error e => .error e
                | .ok ailment =>
                  match from_field i8dec r 7 with
                  | .error e => .error e
                  | .ok recoil =>
                    match from_field i8dec r 8 with
                    | .error e => .error e
                    | .ok healing =>
                      match from_field i8dec r 9 with
                      | .error e => .error e
                      | .ok critical_rate =>
                        match from_field u8dec r 10 with
                        | .error e => .error e
                        | .ok ailment_chance =>
                          match from_field u8dec r 11 with
                          | .error e => .error e
                          | .ok flinch_chance =>
                            match from_field u8dec r 12 with
                            | .error e => .error e
                            | .ok stat_chance =>
                              .ok (st.set id
                                { category := category
                                  ailment := ailment
                                  hits := hits
                                  turns := turns
                                  recoil := recoil
                                  healing := healing
                                  critical_rate := critical_rate
                                  ailment_chance := ailment_chance
                                  flinch_chance := flinch_chance
                                  stat_chance := stat_chance
                                  stat_changes :=
                                    List.replicate CHANGEABLE_STATS 0
                                  flags := 0 })

/-- `vdex::moves::meta::StatChangeTable::load_csv_record`.  The write
`stat_changes[stat.repr() as usize]` indexes a `[i8; 7]` array with the
cast `i8` discriminant, so a decoded `Stat::HP` (discriminant `-1`) would
trap; the outcome is a `RunResult`. -/
def statChangeLoad (st : Nat → Option (List Int)) (r : StringRecord) :
    RunResult (Nat → Option (List Int)) :=
  match from_field MoveId.dec r 0 with
  | .error e => .err e
  | .ok id =>
    if 10000 ≤ id then .ok st
    else
      match from_field (decNat parseU8 Stat.from_veekun) r 1 with
      | .error e => .err e
      | .ok stat =>
        match from_field i8dec r 2 with
        | .error e => .err e
        | .ok change =>
          let stat_changes := match st id with
            | none => List.replicate CHANGEABLE_STATS 0
            | some v => v
          let idx := i8_as_usize (Stat.repr stat)
          if idx < CHANGEABLE_STATS then
            .ok (fun k =>
              if k = id then some (stat_changes.set idx change) else st k)
          else .crash

/-! ### Battle Palace table -/

/-- Pointwise update of a total array modelled as a function. -/
def updateFn (f : Nat → Nat) (i v : Nat) : Nat → Nat :=
  fun k => if k = i then v else f k

/-- `vdex::natures::HalfPalaceTable`: two `[u8; Nature::COUNT]` arrays,
modelled as total functions on the index range. -/
structure HalfPalaceTable where
  attack : Nat → Nat
  defense : Nat → Nat

/-- `HalfPalaceTable::default` (all zeroes). -/
def HalfPalaceTable.default : HalfPalaceTable :=
  { attack := fun _ => 0, defense := fun _ => 0 }

/-- `vdex::natures::PalaceTable`. -/
structure PalaceTable where
  low : HalfPalaceTable
  high : HalfPalaceTable

/-- `PalaceTable::default`. -/
def PalaceTable.default : PalaceTable :=
  { low := HalfPalaceTable.default, high := HalfPalaceTable.default }

/-- `vdex::natures::PalaceTable::load_csv_record`.  The two sums are `u8`
additions and therefore reduce modulo `2^8`. -/
def palaceLoad (st : PalaceTable) (r : StringRecord) :
    Except Error PalaceTable :=
  match from_field (decNat parseU8 Nature.from_veekun) r 0 with
  | .error e => .error e
  | .ok nature =>
    let nature_id := nature.repr
    match from_field (decNat parseU8 BattleStyle.from_veekun) r 1 with
    | .error e => .error e
    | .ok style =>
      match from_field u8dec r 2 with
      | .error e => .error e
      | .ok low =>
        match from_field u8dec r 3 with
        | .error e => .error e
        | .ok high =>
          match style with
          | .Attack =>
            .ok { st with
              low := { st.low with
                attack := updateFn st.low.attack nature_id low }
              high := { st.high with
                attack := updateFn st.high.attack nature_id high } }
          | .Defense =>
            .ok { st with
              low := { st.low with
                defense := updateFn st.low.defense nature_id low }
              high := { st.high with
                defense := updateFn st.high.defense nature_id high } }
          | .Support =>
            let low_attack := st.low.attack nature_id
            let high_attack := st.high.attack nature_id
            let low_defense := st.low.defense nature_id
            let high_defense := st.high.defense nature_id
            let line := r.pos.getD 0
            if (low_attack + low_defense + low) % 256 ≠ 100 then
              .error (.veekun (some line) 2
                (.misc "Preferences must sum to 100."))
            else if (high_attack + high_defense + high) % 256 ≠ 100 then
              .error (.veekun (some line) 3
                (.misc "Preferences must sum to 100."))
            else .ok st

/-! ### Berries and flavors -/

/-- `vdex::items::berries::Berry`. -/
structure Berry where
  item : Nat
  natural_gift_power : Nat
  natural_gift_type : Typ
  flavor : Option Flavor
  deriving DecidableEq

/-- `Berry::default` (derived; `ItemId::default()` is 0). -/
def Berry.default : Berry :=
  { item := 0
    natural_gift_power := 0
    natural_gift_type := .Normal
    flavor := none }

/-- `vdex::items::berries::BerryFlavorTable`: five `[u8; BERRY_COUNT]`
arrays, modelled as total functions on the index range. -/
structure BerryFlavorTable where
  spicy : Nat → Nat
  sour : Nat → Nat
  sweet : Nat → Nat
  dry : Nat → Nat
  bitter : Nat → Nat

/-- `Index<Flavor> for BerryFlavorTable`. -/
def BerryFlavorTable.index (t : BerryFlavorTable) (f : Flavor) :
    Nat → Nat :=
  match f with
  | .Spicy => t.spicy
  | .Sour => t.sour
  | .Sweet => t.sweet
  | .Dry => t.dry
  | .Bitter => t.bitter

/-- One iteration of the inner loop of `BerryTable::set_flavors`: track the
greatest weight seen, keeping the flavor only while it is strictly
greatest (a repeated maximum clears it but keeps the running maximum). -/
def dominant_step (w : Flavor → Nat) (acc : Option Flavor × Nat)
    (flavor : Flavor) : Option Flavor × Nat :=
  let value := w flavor
  if value > acc.2 then (some flavor, value)
  else if value = acc.2 then (none, acc.2)
  else acc

/-- The loop state of `set_flavors` after processing a list of flavors,
starting from `(max_flavor, max_value) = (None, 0)`. -/
def foldState (w : Flavor → Nat) (L : List Flavor) : Option Flavor × Nat :=
  L.foldl (dominant_step w) ((none : Option Flavor), 0)

/-- The dominant flavor computed by the inner loop of
`BerryTable::set_flavors` over `Flavor::VALUES`. -/
def dominant (w : Flavor → Nat) : Option Flavor :=
  (foldState w Flavor.VALUES).1

/-- `vdex::items::berries::BerryTable::set_flavors`: write the dominant
flavor of each berry's weights (the loop runs over every index of the
fixed-size table). -/
def BerryTable.set_flavors (bt : List Berry) (ft : BerryFlavorTable) :
    List Berry :=
  bt.mapIdx (fun id b =>
    { b with flavor := dominant (fun f => ft.index f id) })

/-! ### Species and evolution tables -/

/-- `vdex::pokemon::EvolvesFrom`. -/
structure EvolvesFrom where
  from_id : Nat
  trigger : EvolutionTrigger
  level : Nat
  gender : Gender
  move_id : Nat
  relative_physical_stats : Option Int
  deriving DecidableEq

/-- `EvolvesFrom::default` (derived; `SpeciesId::default()` and
`MoveId::default()` are `u16::MAX`). -/
def EvolvesFrom.default : EvolvesFrom :=
  { from_id := 65535
    trigger := .Trade
    level := 0
    gender := .Genderless
    move_id := 65535
    relative_physical_stats := none }

/-- `vdex::pokemon::EvolutionTable::load_csv_record` (a `HashMap` keyed by
`SpeciesId`, modelled as a function into `Option`). -/
def evolutionLoad (st : Nat → Option EvolvesFrom) (r : StringRecord) :
    Except Error (Nat → Option EvolvesFrom) :=
  match from_field SpeciesId.dec r 1 with
  | .error e => .error e
  | .ok species_id =>
    match from_field (decNat parseU8 EvolutionTrigger.from_veekun) r 2 with
    | .error e => .error e
    | .ok trigger =>
      match from_option_field u8dec r 4 0 with
      | .error e => .error e
      | .ok level =>
        match from_option_field (decNat parseU8 Gender.from_veekun) r 5
            .Genderless with
        | .error e => .error e
        | .ok gender =>
          match from_option_field MoveId.dec r 9 65535 with
          | .error e => .error e
          | .ok move_id =>
            match from_field (decOpt parseI8 some) r 12 with
            | .error e => .error e
            | .ok rps =>
              .ok (fun k =>
                if k = species_id then
                  some { from_id := 65535
                         trigger := trigger
                         level := level
                         gender := gender
                         move_id := move_id
                         relative_physical_stats := rps }
                else st k)

/-- `vdex::pokemon::Species`.  The `pokemon` and `egg_groups` fields, filled
by the unrelated enrichment passes `set_pokemon` and `set_egg_groups`, are
not modelled. -/
structure Species where
  id : Nat
  name : String
  generation : Generation
  gender_rate : Int
  evolves_from : Option EvolvesFrom
  deriving DecidableEq

/-- `Species::default` (derived). -/
def Species.default : Species :=
  { id := 65535
    name := ""
    generation := .I
    gender_rate := 0
    evolves_from := none }

/-- `SpeciesTable::default`: `SPECIES_COUNT` default entries. -/
def SpeciesTable.default : List Species :=
  List.replicate SPECIES_COUNT Species.default

/-- In-place update of one slot of a table vector (`self[id]` assignments;
the decoded identifier is always below the table length). -/
def updateAt {α : Type} (l : List α) (i : Nat) (f : α → α) : List α :=
  match l[i]? with
  | some a => l.set i (f a)
  | none => l

/-- `vdex::pokemon::SpeciesTable::load_csv_record`. -/
def speciesLoad (st : List Species) (r : StringRecord) :
    Except Error (List Species) :=
  match from_field SpeciesId.dec r 0 with
  | .error e => .error e
  | .ok id =>
    match from_field decString r 1 with
    | .error e => .error e
    | .ok identifier =>
      match from_field (decNat parseU8 Generation.from_veekun) r 2 with
      | .error e => .error e
      | .ok generation =>
        match from_field i8dec r 8 with
        | .error e => .error e
        | .ok gender_rate =>
          let st2 := updateAt st id (fun s =>
            { s with
              id := id
              name := to_pascal_case identifier
              generation := generation
              gender_rate := gender_rate })
          match from_field (decOptNat parseU16 SpeciesId.from_veekun) r 3 with
          | .error e => .error e
          | .ok (some from_id) =>
            .ok (updateAt st2 id (fun s =>
              { s with
                evolves_from :=
                  some ({ EvolvesFrom.default with from_id := from_id }) }))
          | .ok none => .ok st2

/-- The loop body of `SpeciesTable::set_evolutions` from index `i` on: when
a species has an `evolves_from` back-reference, keep its `from_id` and take
every other sub-field from the evolution table's entry; the `HashMap` index
`evolution_table[id]` aborts when the entry is missing (`none` result). -/
def set_evolutions_go (evo : Nat → Option EvolvesFrom) :
    Nat → List Species → Option (List Species)
  | _, [] => some []
  | i, s :: rest =>
    let ef? : Option (Option EvolvesFrom) :=
      match s.evolves_from with
      | none => some none
      | some e =>
        match evo i with
        | some v => some (some { v with from_id := e.from_id })
        | none => none
    match ef? with
    | none => none
    | some ef =>
      match set_evolutions_go evo (i + 1) rest with
      | none => none
      | some rest2 => some ({ s with evolves_from := ef } :: rest2)

/-- `vdex::pokemon::SpeciesTable::set_evolutions` (the loop runs over every
index of the fixed-size table). -/
def SpeciesTable.set_evolutions (t : List Species)
    (evo : Nat → Option EvolvesFrom) : Option (List Species) :=
  set_evolutions_go evo 0 t

/-! ### Move table -/

/-- `vdex::moves::Move`. -/
structure Move where
  id : Nat
  name : String
  generation : Generation
  typ : Typ
  power : Nat
  pp : Nat
  accuracy : Option Nat
  priority : Int
  target : Target
  damage_class : DamageClass
  effect : Effect
  effect_chance : Option Nat
  meta : Meta
  deriving DecidableEq

/-- `Move::default` (derived; `MoveId::default()` is `u16::MAX`). -/
def Move.default : Move :=
  { id := 65535
    name := ""
    generation := .V
    typ := .Normal
    power := 0
    pp := 0
    accuracy := none
    priority := 0
    target := .SpecificMove
    damage_class := .NonDamaging
    effect := Effect.default
    effect_chance := none
    meta := Meta.default }

/-- `MoveTable::default`: a vector of `MOVE_COUNT` default moves. -/
def MoveTable.default : List Move :=
  List.replicate MOVE_COUNT Move.default

/-- `vdex::moves::MoveTable::load_csv_record`. -/
def moveLoad (st : List Move) (r : StringRecord) :
    Except Error (List Move) :=
  match from_field MoveId.dec r 0 with
  | .error e => .error e
  | .ok id =>
    if 10000 ≤ id then .ok st
    else
      match from_field (decOptNat parseU8 some) r 6 with
      | .error e => .error e
      | .ok accuracy =>
        match from_field (decOptNat parseU8 some) r 11 with
        | .error e => .error e
        | .ok effect_chance =>
          match get_field r 1 with
          | .error e => .error e
          | .ok identifier =>
            match from_field (decNat parseU8 Generation.from_veekun) r 2 with
            | .error e => .error e
            | .ok generation =>
              match from_field (decNat parseU8 Typ.from_veekun) r 3 with
              | .error e => .error e
              | .ok typ =>
                match from_field u8dec r 4 with
                | .error e => .error e
                | .ok power =>
                  match from_option_field u8dec r 5 0 with
                  | .error e => .error e
                  | .ok pp =>
                    match from_field i8dec r 7 with
                    | .error e => .error e
                    | .ok priority =>
                      match from_field
                          (decNat parseU8 Target.from_veekun) r 8 with
                      | .error e => .error e
                      | .ok target =>
                        match from_field
                            (decNat parseU8 DamageClass.from_veekun) r 9 with
                        | .error e => .error e
                        | .ok damage_class =>
                          match from_field
                              (decNat parseU16 Effect.from_veekun) r 10 with
                          | .error e => .error e
                          | .ok effect =>
                            .ok (st.set id
                              { id := id
                                name := to_pascal_case identifier
                                generation := generation
                                typ := typ
                                power := power
                                pp := pp
                                accuracy := accuracy
                                priority := priority
                                target := target
                                damage_class := damage_class
                                effect := effect
                                effect_chance := effect_chance
                                meta := Meta.default })

/-- `Index<MoveId> for MoveTable`: a bounds-checked vector lookup. -/
def MoveTable.index (t : List Move) (id : Nat) : Option Move :=
  t[id]?

/-! ### Ability and type slot tables -/

/-- The slot guard of `AbilityTable::load_csv_record`, exactly as written in
the source: `slot < 1 && slot > 3`. -/
def abilitySlotGuard (slot : Nat) : Bool :=
  slot < 1 && slot > 3

/-- The slot guard of `TypeTable::load_csv_record`, exactly as written in
the source: `slot < 1 && slot > 2`. -/
def typeSlotGuard (slot : Nat) : Bool :=
  slot < 1 && slot > 2

/-- `vdex::pokemon::AbilityTable::load_csv_record`.  The write
`self[id][slot - 1]` subtracts with `usize` wrapping and indexes a
`[Option<Ability>; 3]` array, so any slot outside `1..=3` traps after the
(unsatisfiable) guard fails to fire. -/
def abilityLoad (st : Nat → Nat → Option Ability) (r : StringRecord) :
    RunResult (Nat → Nat → Option Ability) :=
  match from_field PokemonId.dec r 0 with
  | .error e => .err e
  | .ok id =>
    match from_field (decNat parseU8 Ability.from_veekun) r 1 with
    | .error e => .err e
    | .ok ability =>
      match from_field usizeDec r 3 with
      | .error e => .err e
      | .ok slot =>
        if abilitySlotGuard slot then
          .err (.veekun (get_line r) 3 (.misc "Invalid slot number"))
        else
          let idx := usize_wrapping_sub slot 1
          if idx < 3 then
            .ok (fun i s =>
              if i = id ∧ s = idx then some ability else st i s)
          else .crash

/-- `vdex::pokemon::TypeTable::load_csv_record` (inner arrays of size 2). -/
def typeLoad (st : Nat → Nat → Option Typ) (r : StringRecord) :
    RunResult (Nat → Nat → Option Typ) :=
  match from_field PokemonId.dec r 0 with
  | .error e => .err e
  | .ok id =>
    match from_field (decNat parseU8 Typ.from_veekun) r 1 with
    | .error e => .err e
    | .ok typ =>
      match from_field usizeDec r 2 with
      | .error e => .err e
      | .ok slot =>
        if typeSlotGuard slot then
          .err (.veekun (get_line r) 2 (.misc "Invalid slot number"))
        else
          let idx := usize_wrapping_sub slot 1
          if idx < 2 then
            .ok (fun i s =>
              if i = id ∧ s = idx then some typ else st i s)
          else .crash

/-! ### Theorems -/

/-- Any identifier produced by `MoveId::from_veekun` is below
`MOVE_COUNT`. -/
theorem moveId_lt_of_from_veekun {v id : Nat}
    (h : MoveId.from_veekun v = some id) : id < MOVE_COUNT := by
  unfold MoveId.from_veekun checked_sub at h
  split at h <;> simp_all <;> omega

/-- Inversion of a successful `from_field`: the field string was fetched
and the decoder accepted it. -/
theorem from_field_ok_inv {T : Type} {dec : FieldDec T} {r : StringRecord}
    {i : Nat} {t : T} (h : from_field dec r i = .ok t) :
    ∃ field, get_field r i = .ok field ∧ dec field none = .ok t := by
  unfold from_field at h
  split at h
  · simp_all
  · rename_i field hf
    split at h
    · rename_i t2 heq
      simp only [Except.ok.injEq] at h
      exact ⟨field, hf, by rw [heq, h]⟩
    · simp_all

/-- Inversion of a successful `from_veekun_field`: the field parsed and the
projection accepted the value. -/
theorem fvf_ok_inv {V T : Type} {parse : String → Option V}
    {proj : V → Option T} {field : String} {t : T}
    (h : from_veekun_field parse proj field none = .ok t) :
    ∃ v, parse field = some v ∧ proj v = some t := by
  unfold from_veekun_field at h
  split at h
  · simp_all
  · rename_i v hv
    split at h
    · rename_i t2 ht2
      simp only [Except.ok.injEq] at h
      exact ⟨v, hv, by rw [ht2, h]⟩
    · simp_all

/-- A successful `decNat` decode is a successful `from_veekun_field`. -/
theorem decNat_ok_inv {T : Type} {parse : String → Option Nat}
    {proj : Nat → Option T} {field : String} {d : Option T} {t : T}
    (h : decNat parse proj field d = .ok t) :
    from_veekun_field parse proj field d = .ok t := by
  unfold decNat at h
  split at h <;> simp_all

/-- Inversion of a successful `Nat`-intermediate field decode: the field
string was fetched, parsed, and accepted by the projection. -/
theorem from_field_decNat_ok {T : Type} {parse : String → Option Nat}
    {proj : Nat → Option T} {r : StringRecord} {i : Nat} {t : T}
    (h : from_field (decNat parse proj) r i = .ok t) :
    ∃ field v, get_field r i = .ok field ∧ parse field = some v ∧
      proj v = some t := by
  obtain ⟨field, hf, hdec⟩ := from_field_ok_inv h
  obtain ⟨v, hv, hj⟩ := fvf_ok_inv (decNat_ok_inv hdec)
  exact ⟨field, v, hf, hv, hj⟩

/-- `parseUsize` only produces values below `2^64`. -/
theorem parseUsize_lt {s : String} {n : Nat}
    (h : parseUsize s = some n) : n < 18446744073709551616 := by
  unfold parseUsize at h
  split at h
  · split at h <;> simp_all
  · simp_all

/-- Any value produced by the `usize` field decoder is below `2^64`. -/
theorem usizeDec_lt {r : StringRecord} {i n : Nat}
    (h : from_field usizeDec r i = .ok n) : n < 18446744073709551616 := by
  have h2 : from_field (decNat parseUsize some) r i = .ok n := h
  obtain ⟨field, v, _, hp, hj⟩ := from_field_decNat_ok h2
  cases hj
  exact parseUsize_lt hp

/-- C3: the blanket field decoder honours its contract: a failed parse on a
blank field with a default yields the default; any other failed parse is a
Parse error; a parsed value rejected by the `from_veekun` projection is a
Value error (a kind distinct from Parse); and an accepted value is returned
as is — the default never changes a result that would otherwise succeed. -/
theorem c3_from_veekun_field_contract {V T : Type}
    (parse : String → Option V) (proj : V → Option T)
    (field : String) (default : Option T) :
    (∀ d, parse field = none → default = some d →
      allWhitespace field = true →
      from_veekun_field parse proj field default = .ok d)
    ∧ (parse field = none →
      allWhitespace field = false ∨ default = none →
      from_veekun_field parse proj field default = .error .parse)
    ∧ (∀ v, parse field = some v → proj v = none →
      from_veekun_field parse proj field default = .error (.value v))
    ∧ (∀ v t, parse field = some v → proj v = some t →
      from_veekun_field parse proj field default = .ok t)
    ∧ (∀ v : V, (VeekunError.value v) ≠ (VeekunError.parse : VeekunError V)) := by
  refine ⟨?_, ?_, ?_, ?_, ?_⟩
  · intro d hp hd hw
    simp [from_veekun_field, hp, hd, hw]
  · intro hp hcase
    rcases hcase with hw | hd
    · cases hdef : default with
      | none => simp [from_veekun_field, hp, hdef]
      | some d => simp [from_veekun_field, hp, hdef, hw]
    · simp [from_veekun_field, hp, hd]
  · intro v hp hproj
    simp [from_veekun_field, hp, hproj]
  · intro v t hp hproj
    simp [from_veekun_field, hp, hproj]
  · intro v h
    exact VeekunError.noConfusion h

/-- Witness for C3 at concrete inputs (the `u8`-parsed `ItemId`
projection). -/
theorem c3_witness :
    from_veekun_field parseU8 ItemId.from_veekun " " (some 7) = .ok 7
    ∧ from_veekun_field parseU8 ItemId.from_veekun "x" (some 7) =
      .error .parse
    ∧ from_veekun_field parseU8 ItemId.from_veekun "0" none =
      .error (.value 0)
    ∧ from_veekun_field parseU8 ItemId.from_veekun "3" (some 7) = .ok 3 := by
  refine ⟨?_, ?_, ?_, ?_⟩
  · exact (c3_from_veekun_field_contract parseU8 ItemId.from_veekun
      " " (some 7)).1 7 rfl rfl rfl
  · exact (c3_from_veekun_field_contract parseU8 ItemId.from_veekun
      "x" (some 7)).2.1 rfl (Or.inl rfl)
  · exact (c3_from_veekun_field_contract parseU8 ItemId.from_veekun
      "0" none).2.2.1 0 rfl rfl
  · exact (c3_from_veekun_field_contract parseU8 ItemId.from_veekun
      "3" (some 7)).2.2.2.1 3 3 rfl rfl

/-- C2: shadow-move rows are not silently skipped.  `MoveId::from_veekun`
never yields an identifier at or above `MOVE_COUNT`, so the `id >= 10000`
skip guard in the move-meta, move-flag and move-stat-change loaders is
unreachable, and a row whose move-id field holds the shadow id 10000
makes each loader return a Value error (whatever the current state),
rather than `Ok` with the state unchanged. -/
theorem c2_shadow_rows_error :
    (∀ v id, MoveId.from_veekun v = some id → id < MOVE_COUNT)
    ∧ (∀ st, metaLoad st ⟨["10000"], some 5⟩ =
      .error (.veekun (some 5) 0 (.value 10000)))
    ∧ (∀ st, moveFlagLoad st ⟨["10000"], some 5⟩ =
      .error (.veekun (some 5) 0 (.value 10000)))
    ∧ (∀ st, statChangeLoad st ⟨["10000"], some 5⟩ =
      .err (.veekun (some 5) 0 (.value 10000))) :=
  ⟨fun _ _ h => moveId_lt_of_from_veekun h,
   fun _ => rfl, fun _ => rfl, fun _ => rfl⟩

/-- Witness for C2: the dead-guard bound applied at raw move id 1. -/
theorem c2_witness : MoveId.from_veekun 1 = some 0 ∧ 0 < MOVE_COUNT :=
  ⟨rfl, c2_shadow_rows_error.1 1 0 rfl⟩

/-- C10: the slot-validation guards `slot < 1 && slot > 3` (abilities) and
`slot < 1 && slot > 2` (types) are unsatisfiable, so the invalid-slot error
branch is unreachable; a row whose fields decode with a slot of 0 or past
the per-entity array bound is not rejected — the loader reaches the
wrapping subtraction `slot - 1` and the out-of-bounds array write, and
crashes. -/
theorem c10_slot_guard_unreachable :
    (∀ slot : Nat, abilitySlotGuard slot = false)
    ∧ (∀ slot : Nat, typeSlotGuard slot = false)
    ∧ (∀ st r id ability slot,
      from_field PokemonId.dec r 0 = .ok id →
      from_field (decNat parseU8 Ability.from_veekun) r 1 = .ok ability →
      from_field usizeDec r 3 = .ok slot →
      slot = 0 ∨ 3 < slot →
      abilityLoad st r = .crash)
    ∧ (∀ st r id typ slot,
      from_field PokemonId.dec r 0 = .ok id →
      from_field (decNat parseU8 Typ.from_veekun) r 1 = .ok typ →
      from_field usizeDec r 2 = .ok slot →
      slot = 0 ∨ 2 < slot →
      typeLoad st r = .crash) := by
  refine ⟨?_, ?_, ?_, ?_⟩
  · intro slot
    simp only [abilitySlotGuard, Bool.and_eq_false_iff]
    by_cases h : slot < 1
    · right
      simp
      omega
    · left
      simp
      omega
  · intro slot
    simp only [typeSlotGuard, Bool.and_eq_false_iff]
    by_cases h : slot < 1
    · right
      simp
      omega
    · left
      simp
      omega
  · intro st r id ability slot h0 h1 h2 hs
    have hb := usizeDec_lt h2
    have hg : abilitySlotGuard slot = false := by
      simp only [abilitySlotGuard, Bool.and_eq_false_iff]
      by_cases h : slot < 1
      · right
        simp
        omega
      · left
        simp
        omega
    have hidx : ¬ (usize_wrapping_sub slot 1 < 3) := by
      unfold usize_wrapping_sub
      omega
    simp only [abilityLoad, h0, h1, h2, hg]
    simp [hidx]
  · intro st r id typ slot h0 h1 h2 hs
    have hb := usizeDec_lt h2
    have hg : typeSlotGuard slot = false := by
      simp only [typeSlotGuard, Bool.and_eq_false_iff]
      by_cases h : slot < 1
      · right
        simp
        omega
      · left
        simp
        omega
    have hidx : ¬ (usize_wrapping_sub slot 1 < 2) := by
      unfold usize_wrapping_sub
      omega
    simp only [typeLoad, h0, h1, h2, hg]
    simp [hidx]

/-- Witness for C10: slot 0 crashes the ability loader, slot 4 crashes the
type loader, and the ability guard is false at slot 0. -/
theorem c10_witness :
    abilityLoad (fun _ _ => none) ⟨["1", "164", "x", "0"], none⟩ = .crash
    ∧ typeLoad (fun _ _ => none) ⟨["1", "5", "4"], none⟩ = .crash
    ∧ abilitySlotGuard 0 = false := by
  refine ⟨?_, ?_, c10_slot_guard_unreachable.1 0⟩
  · exact c10_slot_guard_unreachable.2.2.1 _ _ 0 ⟨164⟩ 0
      rfl rfl rfl (Or.inl rfl)
  · exact c10_slot_guard_unreachable.2.2.2 _ _ 0 .Ground 4
      rfl rfl rfl (Or.inr (by omega))

/-- C4: on the closing Support row of the Battle Palace table (all stored
and incoming percentages being at most 100), the loader returns a
validation error with field index 2 and the row's line when the low-context
sum of attack, defense and support percentages is not exactly 100; with
field index 3 when the low sum is 100 but the high sum is not; and
succeeds, leaving the state unchanged, exactly when both sums are 100. -/
theorem c4_palace_sum_validation
    (st : PalaceTable) (r : StringRecord) (n : Nature) (low high : Nat)
    (h0 : from_field (decNat parseU8 Nature.from_veekun) r 0 = .ok n)
    (h1 : from_field (decNat parseU8 BattleStyle.from_veekun) r 1 =
      .ok .Support)
    (h2 : from_field u8dec r 2 = .ok low)
    (h3 : from_field u8dec r 3 = .ok high)
    (bla : st.low.attack n.repr ≤ 100) (bld : st.low.defense n.repr ≤ 100)
    (bha : st.high.attack n.repr ≤ 100) (bhd : st.high.defense n.repr ≤ 100)
    (blo : low ≤ 100) (bhi : high ≤ 100) :
    (st.low.attack n.repr + st.low.defense n.repr + low ≠ 100 →
      palaceLoad st r = .error (.veekun (some (r.pos.getD 0)) 2
        (.misc "Preferences must sum to 100.")))
    ∧ (st.low.attack n.repr + st.low.defense n.repr + low = 100 →
      st.high.attack n.repr + st.high.defense n.repr + high ≠ 100 →
      palaceLoad st r = .error (.veekun (some (r.pos.getD 0)) 3
        (.misc "Preferences must sum to 100.")))
    ∧ (st.low.attack n.repr + st.low.defense n.repr + low = 100 →
      st.high.attack n.repr + st.high.defense n.repr + high = 100 →
      palaceLoad st r = .ok st) := by
  refine ⟨?_, ?_, ?_⟩
  · intro hl
    have e1 : (st.low.attack n.repr + st.low.defense n.repr + low) % 256 ≠
        100 := by omega
    simp only [palaceLoad, h0, h1, h2, h3]
    simp [e1]
  · intro hl hh
    have e1 : (st.low.attack n.repr + st.low.defense n.repr + low) % 256 =
        100 := by omega
    have e2 : (st.high.attack n.repr + st.high.defense n.repr + high) % 256 ≠
        100 := by omega
    simp only [palaceLoad, h0, h1, h2, h3]
    simp [e1, e2]
  · intro hl hh
    have e1 : (st.low.attack n.repr + st.low.defense n.repr + low) % 256 =
        100 := by omega
    have e2 : (st.high.attack n.repr + st.high.defense n.repr + high) % 256 =
        100 := by omega
    simp only [palaceLoad, h0, h1, h2, h3]
    simp [e1, e2]

/-- Witness for C4 on the default (all-zero) table: a closing Support row
needing 99 in the low context fails on field 2, one needing 99 in the high
context fails on field 3, and one reaching 100 in both succeeds. -/
theorem c4_witness :
    palaceLoad PalaceTable.default ⟨["1", "3", "99", "100"], some 7⟩ =
      .error (.veekun (some 7) 2 (.misc "Preferences must sum to 100."))
    ∧ palaceLoad PalaceTable.default ⟨["1", "3", "100", "99"], some 7⟩ =
      .error (.veekun (some 7) 3 (.misc "Preferences must sum to 100."))
    ∧ palaceLoad PalaceTable.default ⟨["1", "3", "100", "100"], some 7⟩ =
      .ok PalaceTable.default := by
  refine ⟨?_, ?_, ?_⟩
  · exact (c4_palace_sum_validation PalaceTable.default
      ⟨["1", "3", "99", "100"], some 7⟩ .Hardy 99 100
      rfl rfl rfl rfl (by decide) (by decide) (by decide) (by decide)
      (by decide) (by decide)).1 (by decide)
  · exact (c4_palace_sum_validation PalaceTable.default
      ⟨["1", "3", "100", "99"], some 7⟩ .Hardy 100 99
      rfl rfl rfl rfl (by decide) (by decide) (by decide) (by decide)
      (by decide) (by decide)).2.1 (by decide) (by decide)
  · exact (c4_palace_sum_validation PalaceTable.default
      ⟨["1", "3", "100", "100"], some 7⟩ .Hardy 100 100
      rfl rfl rfl rfl (by decide) (by decide) (by decide) (by decide)
      (by decide) (by decide)).2.2 (by decide) (by decide)

/-- Indexing a `mapIdx` image at a position the base list populates. -/
theorem getElem?_mapIdx_of_getElem? {α β : Type} (l : List α)
    (f : Nat → α → β) (i : Nat) (b : α) (h : l[i]? = some b) :
    (l.mapIdx f)[i]? = some (f i b) := by
  have hi : i < l.length := by
    rw [List.getElem?_eq_some] at h
    exact h.1
  rw [List.mapIdx_eq_ofFn]
  rw [List.getElem?_ofFn]
  rw [List.getElem?_eq_some] at h
  obtain ⟨h1, h2⟩ := h
  simp only [List.ofFnNthVal, hi, dif_pos]
  simp [List.get_eq_getElem, h2]

/-- Invariant of the `set_flavors` loop over any duplicate-free flavor
list: the tracked value is the running maximum (zero, or attained in the
list), it bounds every processed weight, and the tracked flavor is `some f`
exactly when `f` is a processed flavor of positive weight strictly above
every other processed weight. -/
theorem foldState_char (w : Flavor → Nat) (L : List Flavor) (hnd : L.Nodup) :
    ((foldState w L).2 = 0 ∨ ∃ g ∈ L, (foldState w L).2 = w g)
    ∧ (∀ g ∈ L, w g ≤ (foldState w L).2)
    ∧ (∀ f, (foldState w L).1 = some f ↔
        (f ∈ L ∧ 0 < w f ∧ ∀ g ∈ L, g ≠ f → w g < w f)) := by
  induction L using List.reverseRecOn with
  | nil =>
    refine ⟨Or.inl rfl, by simp, fun f => ?_⟩
    simp [foldState]
  | append_singleton L x IH =>
    have hx : x ∉ L := by
      have hd := List.disjoint_of_nodup_append hnd
      intro hmem
      exact List.disjoint_left.mp hd hmem (by simp)
    have hndL : L.Nodup := (List.nodup_append.mp hnd).1
    obtain ⟨hmax, hub, hiff⟩ := IH hndL
    have hstep : foldState w (L ++ [x]) =
        dominant_step w (foldState w L) x := by
      unfold foldState
      rw [List.foldl_append]
      rfl
    set s := foldState w L with hs
    have hfm : ∀ f, f ∈ L → 0 < w f →
        (∀ g ∈ L, g ≠ f → w g < w f) → w f = s.2 := by
      intro f hfL hfpos hdom
      rcases hmax with h0 | ⟨g0, hg0, hg0eq⟩
      · have := hub f hfL
        omega
      · by_cases hg0f : g0 = f
        · rw [hg0eq, hg0f]
        · have h1 := hdom g0 hg0 hg0f
          have h2 := hub f hfL
          omega
    rcases Nat.lt_trichotomy s.2 (w x) with hlt | heq | hgt
    · have hres : foldState w (L ++ [x]) = (some x, w x) := by
        rw [hstep]
        simp only [dominant_step]
        rw [if_pos (by omega)]
      rw [hres]
      refine ⟨Or.inr ⟨x, by simp, rfl⟩, ?_, ?_⟩
      · intro g hg
        rcases List.mem_append.mp hg with hgL | hgx
        · have := hub g hgL
          omega
        · simp at hgx
          subst hgx
          exact le_refl _
      · intro f
        constructor
        · intro hf
          simp only [Option.some.injEq] at hf
          subst hf
          refine ⟨by simp, by omega, ?_⟩
          intro g hg hne
          rcases List.mem_append.mp hg with hgL | hgx
          · have := hub g hgL
            omega
          · simp at hgx
            exact absurd hgx hne
        · rintro ⟨hfmem, hfpos, hfdom⟩
          rcases List.mem_append.mp hfmem with hfL | hfx
          · exfalso
            have hxf : x ≠ f := fun hxf => hx (hxf ▸ hfL)
            have h1 := hfdom x (by simp) hxf
            have h2 := hub f hfL
            omega
          · simp at hfx
            subst hfx
            rfl
    · have hres : foldState w (L ++ [x]) = (none, s.2) := by
        rw [hstep]
        simp only [dominant_step]
        rw [if_neg (by omega), if_pos (by omega)]
      rw [hres]
      refine ⟨?_, ?_, ?_⟩
      · rcases hmax with h0 | ⟨g, hg, hgeq⟩
        · exact Or.inl h0
        · exact Or.inr ⟨g, List.mem_append_left _ hg, hgeq⟩
      · intro g hg
        rcases List.mem_append.mp hg with hgL | hgx
        · exact hub g hgL
        · simp at hgx
          subst hgx
          omega
      · intro f
        simp only [false_iff]
        constructor
        · intro hcon
          exact Option.noConfusion hcon
        · rintro ⟨hfmem, hfpos, hfdom⟩
          rcases List.mem_append.mp hfmem with hfL | hfx
          · have hxf : x ≠ f := fun hxf => hx (hxf ▸ hfL)
            have h1 := hfdom x (by simp) hxf
            have h2 := hfm f hfL hfpos (fun g hg hne =>
              hfdom g (List.mem_append_left _ hg) hne)
            omega
          · simp at hfx
            subst hfx
            rcases hmax with h0 | ⟨g0, hg0, hg0eq⟩
            · omega
            · have hg0x : g0 ≠ f := fun hgx => hx (hgx ▸ hg0)
              have h1 := hfdom g0 (List.mem_append_left _ hg0) hg0x
              omega
    · have hres : foldState w (L ++ [x]) = s := by
        rw [hstep]
        simp only [dominant_step]
        rw [if_neg (by omega), if_neg (by omega)]
      rw [hres]
      refine ⟨?_, ?_, ?_⟩
      · rcases hmax with h0 | ⟨g, hg, hgeq⟩
        · exact Or.inl h0
        · exact Or.inr ⟨g, List.mem_append_left _ hg, hgeq⟩
      · intro g hg
        rcases List.mem_append.mp hg with hgL | hgx
        · exact hub g hgL
        · simp at hgx
          subst hgx
          omega
      · intro f
        rw [hiff f]
        constructor
        · rintro ⟨hfL, hfpos, hfdom⟩
          refine ⟨List.mem_append_left _ hfL, hfpos, ?_⟩
          intro g hg hne
          rcases List.mem_append.mp hg with hgL | hgx
          · exact hfdom g hgL hne
          · simp at hgx
            subst hgx
            have := hfm f hfL hfpos hfdom
            omega
        · rintro ⟨hfmem, hfpos, hfdom⟩
          rcases List.mem_append.mp hfmem with hfL | hfx
          · exact ⟨hfL, hfpos, fun g hg hne =>
              hfdom g (List.mem_append_left _ hg) hne⟩
          · exfalso
            simp at hfx
            subst hfx
            rcases hmax with h0 | ⟨g0, hg0, hg0eq⟩
            · omega
            · have hg0x : g0 ≠ f := fun hgx => hx (hgx ▸ hg0)
              have h1 := hfdom g0 (List.mem_append_left _ hg0) hg0x
              omega

/-- Every flavor is in `Flavor::VALUES`. -/
theorem flavor_mem_values (g : Flavor) : g ∈ Flavor.VALUES := by
  cases g <;> decide

/-- `dominant` selects exactly the flavor of positive weight strictly
greater than all other weights. -/
theorem dominant_iff (w : Flavor → Nat) (f : Flavor) :
    dominant w = some f ↔ (0 < w f ∧ ∀ g, g ≠ f → w g < w f) := by
  have h := (foldState_char w Flavor.VALUES (by decide)).2.2 f
  unfold dominant
  rw [h]
  constructor
  · rintro ⟨_, hpos, hdom⟩
    exact ⟨hpos, fun g hne => hdom g (flavor_mem_values g) hne⟩
  · rintro ⟨hpos, hdom⟩
    exact ⟨flavor_mem_values f, hpos, fun g _ hne => hdom g hne⟩

/-- C5: `set_flavors` writes into every berry the dominant flavor of its
weights; the dominant flavor is `some f` exactly when `f`'s weight is
positive and strictly greater than every other flavor's weight, and any
tie at the greatest weight (the all-zero case included) yields `none`,
never an arbitrary pick. -/
theorem c5_dominant_flavor (bt : List Berry) (ft : BerryFlavorTable)
    (i : Nat) (b : Berry) (h : bt[i]? = some b) :
    (BerryTable.set_flavors bt ft)[i]? =
      some ({ b with flavor := dominant (fun f => ft.index f i) })
    ∧ (∀ f, dominant (fun f => ft.index f i) = some f ↔
        (0 < ft.index f i ∧ ∀ g, g ≠ f → ft.index g i < ft.index f i))
    ∧ (∀ f g, f ≠ g → ft.index f i = ft.index g i →
        (∀ f2, ft.index f2 i ≤ ft.index f i) →
        dominant (fun f => ft.index f i) = none) := by
  refine ⟨?_, fun f => dominant_iff _ f, ?_⟩
  · exact getElem?_mapIdx_of_getElem? bt _ i b h
  · intro f g hfg hw hub
    cases hd : dominant (fun f => ft.index f i) with
    | none => rfl
    | some d =>
      exfalso
      obtain ⟨hpos, hdom⟩ := (dominant_iff _ d).mp hd
      by_cases hdf : d = f
      · subst hdf
        have hgd : g ≠ d := fun hgd => hfg (hgd ▸ rfl)
        have h1 := hdom g hgd
        omega
      · have h1 := hdom f (fun hfd => hdf hfd.symm)
        have h2 := hub d
        omega

/-- Witness for C5: weights `(Spicy=60, Sour=40)` pick `Spicy`; weights
`(Spicy=50, Sour=50)` yield no dominant flavor. -/
theorem c5_witness :
    (BerryTable.set_flavors [Berry.default]
      ⟨fun _ => 60, fun _ => 40, fun _ => 0, fun _ => 0, fun _ => 0⟩)[0]? =
      some ({ Berry.default with flavor := some Flavor.Spicy })
    ∧ dominant (fun f => BerryFlavorTable.index
        ⟨fun _ => 50, fun _ => 50, fun _ => 0, fun _ => 0, fun _ => 0⟩
        f 0) = none := by
  constructor
  · exact (c5_dominant_flavor [Berry.default]
      ⟨fun _ => 60, fun _ => 40, fun _ => 0, fun _ => 0, fun _ => 0⟩
      0 Berry.default rfl).1
  · exact (c5_dominant_flavor [Berry.default]
      ⟨fun _ => 50, fun _ => 50, fun _ => 0, fun _ => 0, fun _ => 0⟩
      0 Berry.default rfl).2.2 .Spicy .Sour (by decide) rfl
      (fun f2 => by cases f2 <;> decide)

/-- Folding OR from an arbitrary start extracts the start value. -/
theorem foldl_lor_init (l : List Nat) (a : Nat) :
    l.foldl (fun a b => a ||| b) a = a ||| orAll l := by
  induction l generalizing a with
  | nil => simp [orAll]
  | cons x l IH =>
    rw [List.foldl_cons, IH]
    have h2 : orAll (x :: l) = x ||| orAll l := by
      unfold orAll
      rw [List.foldl_cons, IH (0 ||| x)]
      simp [orAll]
    rw [h2, Nat.lor_assoc]

/-- `orAll` over a cons. -/
theorem orAll_cons (x : Nat) (l : List Nat) :
    orAll (x :: l) = x ||| orAll l := by
  unfold orAll
  rw [List.foldl_cons, foldl_lor_init]
  simp [orAll]

/-- ORing in an element already present changes nothing. -/
theorem orAll_mem_absorb {x : Nat} {l : List Nat} (h : x ∈ l) :
    x ||| orAll l = orAll l := by
  induction l with
  | nil => simp at h
  | cons c l IH =>
    rw [orAll_cons]
    rcases List.mem_cons.mp h with hx | hx
    · subst hx
      rw [← Nat.lor_assoc]
      simp
    · rw [← Nat.lor_assoc, Nat.lor_comm x c, Nat.lor_assoc, IH hx]

/-- `orAll` is invariant under permutation. -/
theorem orAll_perm {l l2 : List Nat} (h : l.Perm l2) :
    orAll l = orAll l2 := by
  induction h with
  | nil => rfl
  | cons x _ IH => rw [orAll_cons, orAll_cons, IH]
  | swap x y l =>
    rw [orAll_cons, orAll_cons, orAll_cons, orAll_cons,
      ← Nat.lor_assoc, ← Nat.lor_assoc, Nat.lor_comm y x]
  | trans _ _ IH1 IH2 => rw [IH1, IH2]

/-- `accFlags` from a present accumulator is the OR of everything. -/
theorem accFlags_some (cs : List Nat) (v : Nat) :
    accFlags (some v) cs = some (orAll cs ||| v) := by
  induction cs generalizing v with
  | nil => simp [accFlags, orAll]
  | cons f cs IH =>
    unfold accFlags
    rw [List.foldl_cons]
    have : accFlags (some (f ||| v)) cs = some (orAll cs ||| (f ||| v)) :=
      IH (f ||| v)
    unfold accFlags at this
    rw [this, orAll_cons, ← Nat.lor_assoc, Nat.lor_comm (orAll cs) f,
      Nat.lor_assoc]

/-- `accFlags` from an absent accumulator: nothing for no contributions,
the OR of the contributions otherwise. -/
theorem accFlags_none_char (cs : List Nat) :
    accFlags none cs = if cs.isEmpty then none else some (orAll cs) := by
  cases cs with
  | nil => rfl
  | cons f cs =>
    unfold accFlags
    rw [List.foldl_cons]
    have := accFlags_some cs f
    unfold accFlags at this
    rw [this]
    simp [orAll_cons, Nat.lor_comm]

/-- `accFlags` is invariant under permutation of the contributions. -/
theorem accFlags_perm {cs cs2 : List Nat} (h : cs.Perm cs2)
    (base : Option Nat) : accFlags base cs = accFlags base cs2 := by
  cases base with
  | none =>
    rw [accFlags_none_char, accFlags_none_char, orAll_perm h]
    have hemp : cs.isEmpty = cs2.isEmpty := by
      have hlen := h.length_eq
      cases cs <;> cases cs2 <;> simp_all
    rw [hemp]
  | some v => rw [accFlags_some, accFlags_some, orAll_perm h]

/-- Appending a contribution already present changes nothing. -/
theorem accFlags_append_mem {x : Nat} {cs : List Nat} (h : x ∈ cs)
    (base : Option Nat) : accFlags base (cs ++ [x]) = accFlags base cs := by
  have happ : accFlags base (cs ++ [x]) =
      some (match accFlags base cs with
        | none => x
        | some v => x ||| v) := by
    unfold accFlags
    rw [List.foldl_append]
    rfl
  rw [happ]
  cases base with
  | none =>
    have hne : cs.isEmpty = false := by
      cases cs with
      | nil => simp at h
      | cons _ _ => rfl
    rw [accFlags_none_char, hne]
    simp only [Bool.false_eq_true, if_false, Option.some.injEq]
    exact orAll_mem_absorb h
  | some v =>
    rw [accFlags_some]
    simp only [Option.some.injEq]
    rw [← Nat.lor_assoc, orAll_mem_absorb h]

/-- The state reached by folding decoded flag rows, at one key, is
`accFlags` of that key's contributions. -/
theorem mergeFold_char (ps : List (Nat × Nat)) (st : Nat → Option Nat)
    (key : Nat) :
    mergeFold st ps key = accFlags (st key) (flagContribs ps key) := by
  induction ps generalizing st with
  | nil => rfl
  | cons p ps IH =>
    obtain ⟨id, f⟩ := p
    have hlhs : mergeFold st ((id, f) :: ps) key =
        mergeFold (mergeFlag st id f) ps key := rfl
    rw [hlhs, IH]
    by_cases hid : id = key
    · subst hid
      have h1 : flagContribs ((id, f) :: ps) id =
          f :: flagContribs ps id := by
        simp [flagContribs]
      rw [h1]
      have h2 : mergeFlag st id f id = some (match st id with
          | none => f
          | some v => f ||| v) := by
        simp [mergeFlag]
      rw [h2]
      rfl
    · have h1 : flagContribs ((id, f) :: ps) key = flagContribs ps key := by
        simp [flagContribs, hid]
      have hne : ¬ (key = id) := fun hh => hid hh.symm
      have h2 : mergeFlag st id f key = st key := by
        simp [mergeFlag, hne]
      rw [h1, h2]

/-- A decoded item-flag row drives the loader to the merge. -/
theorem itemFlagLoad_of_dec {r : StringRecord} {p : Nat × Nat}
    (h : itemRowDec r = some p) (st : Nat → Option Nat) :
    itemFlagLoad st r = .ok (mergeFlag st p.1 p.2) := by
  unfold itemRowDec at h
  split at h
  · rename_i i f hi hf
    simp only [Option.some.injEq] at h
    subst h
    unfold itemFlagLoad
    rw [hi, hf]
  · simp at h

/-- A decoded move-flag row drives the loader to the merge (the shadow
guard cannot fire: decoded ids are below `MOVE_COUNT`). -/
theorem moveFlagLoad_of_dec {r : StringRecord} {p : Nat × Nat}
    (h : moveRowDec r = some p) (st : Nat → Option Nat) :
    moveFlagLoad st r = .ok (mergeFlag st p.1 p.2) := by
  unfold moveRowDec at h
  split at h
  · rename_i i f hi hf
    simp only [Option.some.injEq] at h
    subst h
    have hlt : i < MOVE_COUNT := by
      obtain ⟨field, v, _, _, hj⟩ := from_field_decNat_ok hi
      exact moveId_lt_of_from_veekun hj
    unfold moveFlagLoad
    rw [hi, hf]
    have : ¬ 10000 ≤ i := by
      unfold MOVE_COUNT at hlt
      omega
    simp [this]
  · simp at h

/-- Folding item-flag rows through `from_csv_go` is `mergeFold` of the
decoded contributions. -/
theorem item_fold_link {recs : List StringRecord} {ps : List (Nat × Nat)}
    (h : List.Forall₂ (fun r p => itemRowDec r = some p) recs ps) :
    ∀ st, from_csv_go itemFlagLoad st (recs.map Except.ok) =
      .ok (mergeFold st ps) := by
  induction h with
  | nil => intro st; rfl
  | @cons r p recs2 ps2 hr hrest IH =>
    intro st
    have hl := itemFlagLoad_of_dec hr st
    simp only [List.map_cons, from_csv_go, hl]
    exact IH (mergeFlag st p.1 p.2)

/-- Folding move-flag rows through `from_csv_go` is `mergeFold` of the
decoded contributions. -/
theorem move_fold_link {recs : List StringRecord} {ps : List (Nat × Nat)}
    (h : List.Forall₂ (fun r p => moveRowDec r = some p) recs ps) :
    ∀ st, from_csv_go moveFlagLoad st (recs.map Except.ok) =
      .ok (mergeFold st ps) := by
  induction h with
  | nil => intro st; rfl
  | @cons r p recs2 ps2 hr hrest IH =>
    intro st
    have hl := moveFlagLoad_of_dec hr st
    simp only [List.map_cons, from_csv_go, hl]
    exact IH (mergeFlag st p.1 p.2)

/-- C6: loading a sequence of decodable flag rows (item-flag or move-flag)
accumulates, per key, exactly the bitwise OR of that key's per-row
contributions (absent when no row contributed); consequently the final map
is invariant under permutation of the rows and under appending a duplicate
of a row already present. -/
theorem c6_flag_or_accumulation :
    (∀ recs ps, List.Forall₂ (fun r p => itemRowDec r = some p) recs ps →
      from_csv (fun _ => none) itemFlagLoad (recs.map Except.ok) =
        .ok (mergeFold (fun _ => none) ps))
    ∧ (∀ recs ps, List.Forall₂ (fun r p => moveRowDec r = some p) recs ps →
      from_csv (fun _ => none) moveFlagLoad (recs.map Except.ok) =
        .ok (mergeFold (fun _ => none) ps))
    ∧ (∀ ps key, mergeFold (fun _ => none) ps key =
        if (flagContribs ps key).isEmpty then none
        else some (orAll (flagContribs ps key)))
    ∧ (∀ ps ps2, ps.Perm ps2 →
        mergeFold (fun _ => none) ps = mergeFold (fun _ => none) ps2)
    ∧ (∀ ps p, p ∈ ps →
        mergeFold (fun _ => none) (ps ++ [p]) =
          mergeFold (fun _ => none) ps) := by
  refine ⟨?_, ?_, ?_, ?_, ?_⟩
  · intro recs ps h
    exact item_fold_link h _
  · intro recs ps h
    exact move_fold_link h _
  · intro ps key
    rw [mergeFold_char, accFlags_none_char]
  · intro ps ps2 h
    funext key
    rw [mergeFold_char, mergeFold_char]
    exact accFlags_perm (h.filterMap _) none
  · intro ps p hp
    funext key
    rw [mergeFold_char, mergeFold_char]
    have happ : flagContribs (ps ++ [p]) key =
        flagContribs ps key ++ flagContribs [p] key := by
      simp [flagContribs]
    rw [happ]
    by_cases hid : p.1 = key
    · have h1 : flagContribs [p] key = [p.2] := by
        simp [flagContribs, hid]
      rw [h1]
      have hmem : p.2 ∈ flagContribs ps key := by
        simp only [flagContribs, List.mem_filterMap]
        exact ⟨p, hp, by simp [hid]⟩
      exact accFlags_append_mem hmem none
    · have h1 : flagContribs [p] key = [] := by
        simp [flagContribs, hid]
      rw [h1, List.append_nil]

/-- Witness for C6: two item-flag rows for key 1 with flags 1 and 4 (raw
bits 1 and 3) accumulate to `1 ||| 4`, in either order. -/
theorem c6_witness :
    from_csv (fun _ => none) itemFlagLoad
      ([(⟨["1", "1"], none⟩ : StringRecord), ⟨["1", "3"], none⟩].map
        Except.ok) =
      .ok (mergeFold (fun _ => none) [(1, 1), (1, 4)])
    ∧ mergeFold (fun _ => none) [(1, 1), (1, 4)] =
      mergeFold (fun _ => none) [(1, 4), (1, 1)]
    ∧ mergeFold (fun _ => none) ([(1, 1), (1, 4)] ++ [(1, 1)]) =
      mergeFold (fun _ => none) [(1, 1), (1, 4)] := by
  refine ⟨?_, ?_, ?_⟩
  · exact c6_flag_or_accumulation.1 _ [(1, 1), (1, 4)]
      (List.Forall₂.cons rfl (List.Forall₂.cons rfl List.Forall₂.nil))
  · exact c6_flag_or_accumulation.2.2.2.1 _ _ (List.Perm.swap _ _ _)
  · exact c6_flag_or_accumulation.2.2.2.2 _ (1, 1) (by simp)

/-- One move-table load step preserves the number of slots (it either
skips the row or overwrites one slot in place). -/
theorem moveLoad_length {st : List Move} {r : StringRecord} {st2 : List Move}
    (h : moveLoad st r = .ok st2) : st2.length = st.length := by
  unfold moveLoad at h
  repeat' split at h
  all_goals first
  | (injection h with h2; subst h2; simp)
  | exact absurd h (by simp)

/-- Folding any record stream into the move table preserves the number of
slots. -/
theorem from_csv_go_move_length :
    ∀ (rows : List (Except CsvError StringRecord)) (st st2 : List Move),
      from_csv_go moveLoad st rows = .ok st2 → st2.length = st.length := by
  intro rows
  induction rows with
  | nil =>
    intro st st2 h
    simp only [from_csv_go] at h
    injection h with h2
    rw [h2]
  | cons x rows IH =>
    intro st st2 h
    cases x with
    | error e => exact absurd h (by simp [from_csv_go])
    | ok r =>
      simp only [from_csv_go] at h
      cases hl : moveLoad st r with
      | error e => rw [hl] at h; exact absurd h (by simp)
      | ok s2 =>
        rw [hl] at h
        rw [IH s2 st2 h, moveLoad_length hl]

/-- C7: the move table is dense with a fixed size: it has exactly
`MOVE_COUNT` slots from construction, keeps exactly `MOVE_COUNT` slots
after loading any record stream, and indexing by any identifier below
`MOVE_COUNT` returns a move without error. -/
theorem c7_dense_move_table :
    MoveTable.default.length = MOVE_COUNT
    ∧ (∀ rows t, from_csv MoveTable.default moveLoad rows = .ok t →
        t.length = MOVE_COUNT)
    ∧ (∀ (t : List Move) (id : Nat), t.length = MOVE_COUNT →
        id < MOVE_COUNT → (MoveTable.index t id).isSome = true) := by
  refine ⟨by simp [MoveTable.default], ?_, ?_⟩
  · intro rows t h
    rw [from_csv_go_move_length rows MoveTable.default t h]
    simp [MoveTable.default]
  · intro t id hlen hid
    unfold MoveTable.index
    rw [List.getElem?_eq_getElem (by omega)]
    rfl

/-- Witness for C7: the empty record stream leaves the default table with
its `MOVE_COUNT` slots, and slot 0 is present. -/
theorem c7_witness :
    MoveTable.default.length = MOVE_COUNT
    ∧ (MoveTable.index MoveTable.default 0).isSome = true := by
  constructor
  · exact c7_dense_move_table.2.1 [] MoveTable.default rfl
  · exact c7_dense_move_table.2.2 MoveTable.default 0
      (by simp [MoveTable.default]) (by decide)

/-- `from_csv_go` over a concatenation runs the first part and continues
from its state, stopping if it errored. -/
theorem from_csv_go_append {S : Type}
    (load : S → StringRecord → Except Error S)
    (pre rest : List (Except CsvError StringRecord)) (s : S) :
    from_csv_go load s (pre ++ rest) =
      match from_csv_go load s pre with
      | .ok s2 => from_csv_go load s2 rest
      | .error e => .error e := by
  induction pre generalizing s with
  | nil => rfl
  | cons x pre IH =>
    cases x with
    | error e => rfl
    | ok r =>
      simp only [List.cons_append, from_csv_go]
      cases load s r with
      | error e => rfl
      | ok s2 => exact IH s2

/-- On a stream of readable records, `from_csv_go` is the monadic fold of
the loader, in row order. -/
theorem from_csv_go_foldlM {S : Type}
    (load : S → StringRecord → Except Error S) :
    ∀ (recs : List StringRecord) (s : S),
      from_csv_go load s (recs.map Except.ok) = List.foldlM load s recs := by
  intro recs
  induction recs with
  | nil => intro s; rfl
  | cons r recs IH =>
    intro s
    simp only [List.map_cons, from_csv_go, List.foldlM_cons]
    cases hl : load s r with
    | error e => rfl
    | ok s2 => exact IH s2

/-- C8: `from_csv` folds the record stream into the empty initial state in
row order: on all-readable streams it is exactly the monadic fold of
`load_csv_record`; a reader error or a load error occurring after a
successfully folded prefix is returned as is, with the rows after it never
processed (the result does not depend on them); and an `Ok` result means
every row was read and folded successfully, yielding the fold's state. -/
theorem c8_from_csv_first_error {S : Type} (empty : S)
    (load : S → StringRecord → Except Error S) :
    (∀ recs : List StringRecord,
      from_csv empty load (recs.map Except.ok) = List.foldlM load empty recs)
    ∧ (∀ (precs : List StringRecord) (s : S) e suf,
      from_csv empty load (precs.map Except.ok) = .ok s →
      from_csv empty load (precs.map Except.ok ++ .error e :: suf) =
        .error (.csv e))
    ∧ (∀ (precs : List StringRecord) (s : S) r e2 suf,
      from_csv empty load (precs.map Except.ok) = .ok s →
      load s r = .error e2 →
      from_csv empty load (precs.map Except.ok ++ .ok r :: suf) =
        .error e2)
    ∧ (∀ rows s2, from_csv empty load rows = .ok s2 →
      ∃ recs, rows = recs.map Except.ok ∧
        List.foldlM load empty recs = .ok s2) := by
  refine ⟨?_, ?_, ?_, ?_⟩
  · intro recs
    exact from_csv_go_foldlM load recs empty
  · intro precs s e suf h
    unfold from_csv at h ⊢
    rw [from_csv_go_append, h]
    rfl
  · intro precs s r e2 suf h hl
    unfold from_csv at h ⊢
    rw [from_csv_go_append, h]
    have hred : from_csv_go load s (Except.ok r :: suf) = .error e2 := by
      simp only [from_csv_go, hl]
    exact hred
  · intro rows
    unfold from_csv
    have : ∀ (rows : List (Except CsvError StringRecord)) (s s2 : S),
        from_csv_go load s rows = .ok s2 →
        ∃ recs, rows = recs.map Except.ok ∧
          List.foldlM load s recs = .ok s2 := by
      intro rows
      induction rows with
      | nil =>
        intro s s2 h
        simp only [from_csv_go] at h
        exact ⟨[], rfl, h⟩
      | cons x rows IH =>
        intro s s2 h
        cases x with
        | error e => exact absurd h (by simp [from_csv_go])
        | ok r =>
          simp only [from_csv_go] at h
          cases hl : load s r with
          | error e => rw [hl] at h; exact absurd h (by simp)
          | ok s3 =>
            rw [hl] at h
            obtain ⟨recs, hrows, hfold⟩ := IH s3 s2 h
            refine ⟨r :: recs, by rw [hrows]; rfl, ?_⟩
            rw [List.foldlM_cons, hl]
            exact hfold
    exact this rows empty

/-- Witness for C8 with a counting loader that rejects field-less
records: the first failing row aborts with its error, later rows
notwithstanding, and an all-good stream folds to its accumulated state. -/
theorem c8_witness :
    from_csv 0
      (fun (s : Nat) (r : StringRecord) =>
        if r.fields.isEmpty then (.error (.csv ⟨9⟩) : Except Error Nat)
        else .ok (s + 1))
      [Except.ok ⟨[], none⟩, Except.ok ⟨["x"], none⟩] = .error (.csv ⟨9⟩)
    ∧ from_csv 0
      (fun (s : Nat) (r : StringRecord) =>
        if r.fields.isEmpty then (.error (.csv ⟨9⟩) : Except Error Nat)
        else .ok (s + 1))
      [Except.error ⟨7⟩] = .error (.csv ⟨7⟩)
    ∧ ∃ recs, (([Except.ok ⟨["x"], none⟩] :
        List (Except CsvError StringRecord)) = recs.map Except.ok)
      ∧ List.foldlM
          (fun (s : Nat) (r : StringRecord) =>
            if r.fields.isEmpty then (.error (.csv ⟨9⟩) : Except Error Nat)
            else .ok (s + 1)) 0 recs = .ok 1 := by
  refine ⟨?_, ?_, ?_⟩
  · exact (c8_from_csv_first_error 0 _).2.2.1 [] 0 ⟨[], none⟩ (.csv ⟨9⟩)
      [Except.ok ⟨["x"], none⟩] rfl rfl
  · exact (c8_from_csv_first_error 0 _).2.1 [] 0 ⟨7⟩ [] rfl
  · exact (c8_from_csv_first_error 0 _).2.2.2
      [Except.ok ⟨["x"], none⟩] 1 rfl

/-- Updating a populated slot updates exactly that slot's lookup. -/
theorem updateAt_getElem_self {α : Type} (l : List α) (i : Nat) (f : α → α) :
    (updateAt l i f)[i]? = (l[i]?).map f := by
  unfold updateAt
  cases h : l[i]? with
  | none => simp [h]
  | some a =>
    have hi : i < l.length := by
      rw [List.getElem?_eq_some] at h
      exact h.1
    rw [List.getElem?_set_self (by simpa using hi)]
    simp [h]

/-- Any identifier produced by `SpeciesId::from_veekun` is below
`SPECIES_COUNT`. -/
theorem speciesId_lt_of_from_veekun {v id : Nat}
    (h : SpeciesId.from_veekun v = some id) : id < SPECIES_COUNT := by
  unfold SpeciesId.from_veekun checked_sub at h
  split at h <;> simp_all <;> omega

/-- A blank field decodes to domain `None` under the option wrapper. -/
theorem decOptNat_blank {T : Type} {parse : String → Option Nat}
    {proj : Nat → Option T} {f3 : String} (hws : allWhitespace f3 = true)
    (d : Option (Option T)) : decOptNat parse proj f3 d = .ok none := by
  simp [decOptNat, hws]

/-- Conversely, only a blank field decodes to domain `None`. -/
theorem decOptNat_ok_none_ws {T : Type} {parse : String → Option Nat}
    {proj : Nat → Option T} {f3 : String} {d : Option (Option T)}
    (h : decOptNat parse proj f3 d = .ok none) :
    allWhitespace f3 = true := by
  unfold decOptNat at h
  split at h
  · assumption
  · split at h <;> simp_all

/-- Inversion of a successful species-row load: all five fields decoded,
and the new table is the four-attribute update, plus the back-reference
update exactly when field 3 decoded to a present identifier. -/
theorem speciesLoad_inv {st : List Species} {r : StringRecord}
    {st2 : List Species} (h : speciesLoad st r = .ok st2) :
    ∃ id identifier generation gender_rate v3,
      from_field SpeciesId.dec r 0 = .ok id ∧
      from_field decString r 1 = .ok identifier ∧
      from_field (decNat parseU8 Generation.from_veekun) r 2 =
        .ok generation ∧
      from_field i8dec r 8 = .ok gender_rate ∧
      from_field (decOptNat parseU16 SpeciesId.from_veekun) r 3 = .ok v3 ∧
      ((∃ from_id, v3 = some from_id ∧
        st2 = updateAt (updateAt st id (fun s =>
            { s with
              id := id
              name := to_pascal_case identifier
              generation := generation
              gender_rate := gender_rate })) id (fun s =>
            { s with
              evolves_from :=
                some ({ EvolvesFrom.default with from_id := from_id }) }))
      ∨ (v3 = none ∧
        st2 = updateAt st id (fun s =>
            { s with
              id := id
              name := to_pascal_case identifier
              generation := generation
              gender_rate := gender_rate }))) := by
  unfold speciesLoad at h
  split at h
  · simp_all
  · rename_i id h0
    split at h
    · simp_all
    · rename_i identifier h1
      split at h
      · simp_all
      · rename_i generation h2
        split at h
        · simp_all
        · rename_i gender_rate h8
          split at h
          · simp_all
          · rename_i from_id h3
            simp only [Except.ok.injEq] at h
            exact ⟨id, identifier, generation, gender_rate, some from_id,
              h0, h1, h2, h8, h3, Or.inl ⟨from_id, rfl, h.symm⟩⟩
          · rename_i h3
            simp only [Except.ok.injEq] at h
            exact ⟨id, identifier, generation, gender_rate, none,
              h0, h1, h2, h8, h3, Or.inr ⟨rfl, h.symm⟩⟩

/-- Elementwise behavior of the `set_evolutions` loop from any starting
index: a slot with no back-reference is kept as is, and a slot with one
keeps its `from_id` and takes every other sub-field from the evolution
table's entry at the slot's index. -/
theorem set_evolutions_go_getElem (evo : Nat → Option EvolvesFrom) :
    ∀ (L : List Species) (i0 k : Nat) (L2 : List Species) (s : Species),
      set_evolutions_go evo i0 L = some L2 → L[k]? = some s →
      (s.evolves_from = none → L2[k]? = some s)
      ∧ (∀ e v, s.evolves_from = some e → evo (i0 + k) = some v →
          L2[k]? = some ({ s with
            evolves_from :=
              some ({ v with from_id := e.from_id }) })) := by
  intro L
  induction L with
  | nil =>
    intro i0 k L2 s h hk
    simp at hk
  | cons a L IH =>
    intro i0 k L2 s h hk
    have hsucc_case : ∀ (rest2 : List Species) (ef : Option EvolvesFrom),
        set_evolutions_go evo (i0 + 1) L = some rest2 →
        L2 = { a with evolves_from := ef } :: rest2 →
        ∀ k2, k = k2 + 1 →
        (s.evolves_from = none → L2[k]? = some s)
        ∧ (∀ e v, s.evolves_from = some e → evo (i0 + k) = some v →
            L2[k]? = some ({ s with
              evolves_from :=
                some ({ v with from_id := e.from_id }) })) := by
      intro rest2 ef hrest hl2 k2 hk2
      subst hl2
      subst hk2
      simp only [List.getElem?_cons_succ] at hk
      have hrec := IH (i0 + 1) k2 rest2 s hrest hk
      have hidx : i0 + 1 + k2 = i0 + (k2 + 1) := by omega
      rw [hidx] at hrec
      exact ⟨fun hn => by
          simp only [List.getElem?_cons_succ]
          exact hrec.1 hn,
        fun e v he hv => by
          simp only [List.getElem?_cons_succ]
          exact hrec.2 e v he hv⟩
    cases ha : a.evolves_from with
    | none =>
      have hstep : set_evolutions_go evo i0 (a :: L) =
          match set_evolutions_go evo (i0 + 1) L with
          | none => none
          | some rest2 =>
            some ({ a with evolves_from := none } :: rest2) := by
        conv_lhs => unfold set_evolutions_go
        rw [ha]
      rw [hstep] at h
      cases hrest : set_evolutions_go evo (i0 + 1) L with
      | none =>
        rw [hrest] at h
        exact absurd h (by simp)
      | some rest2 =>
        rw [hrest] at h
        simp only [Option.some.injEq] at h
        cases k with
        | zero =>
          simp only [List.getElem?_cons_zero, Option.some.injEq] at hk
          subst h
          constructor
          · intro _
            simp only [List.getElem?_cons_zero, Option.some.injEq]
            rw [← hk]
            rw [← ha]
          · intro e v he hv
            rw [← hk] at he
            rw [ha] at he
            exact absurd he (by simp)
        | succ k2 =>
          subst h
          exact hsucc_case rest2 none hrest rfl k2 rfl
    | some e0 =>
      cases hv0 : evo i0 with
      | none =>
        have hstep : set_evolutions_go evo i0 (a :: L) = none := by
          conv_lhs => unfold set_evolutions_go
          rw [ha, hv0]
        rw [hstep] at h
        exact absurd h (by simp)
      | some v0 =>
        have hstep : set_evolutions_go evo i0 (a :: L) =
            match set_evolutions_go evo (i0 + 1) L with
            | none => none
            | some rest2 =>
              some ({ a with
                evolves_from :=
                  some ({ v0 with from_id := e0.from_id }) } :: rest2) := by
          conv_lhs => unfold set_evolutions_go
          rw [ha, hv0]
        rw [hstep] at h
        cases hrest : set_evolutions_go evo (i0 + 1) L with
        | none =>
          rw [hrest] at h
          exact absurd h (by simp)
        | some rest2 =>
          rw [hrest] at h
          simp only [Option.some.injEq] at h
          cases k with
          | zero =>
            simp only [List.getElem?_cons_zero, Option.some.injEq] at hk
            subst h
            constructor
            · intro hnone
              rw [← hk] at hnone
              rw [ha] at hnone
              exact absurd hnone (by simp)
            · intro e v he hv
              rw [← hk] at he
              rw [ha] at he
              simp only [Option.some.injEq] at he
              subst he
              rw [Nat.add_zero] at hv
              rw [hv0] at hv
              simp only [Option.some.injEq] at hv
              subst hv
              simp only [List.getElem?_cons_zero, Option.some.injEq]
              rw [← hk]
          | succ k2 =>
            subst h
            exact hsucc_case rest2 _ hrest rfl k2 rfl

set_option maxRecDepth 100000 in
/-- C9 counterexample to the claim as stated: a species row whose
evolves-from field holds the non-empty, all-whitespace string of one space
loads successfully and leaves `evolves_from` absent. -/
theorem c9_counterexample :
    (∃ st2, speciesLoad SpeciesTable.default
        ⟨["2", "ivysaur", "1", " ", "", "", "", "", "0"], some 3⟩ =
        .ok st2 ∧ (st2[1]?.map Species.evolves_from) = some none)
    ∧ " " ≠ "" := by
  refine ⟨⟨_, rfl, ?_⟩, by decide⟩
  rfl

/-- C9 (amended): for a species row that loads successfully into a table
whose slot for the row's id has no back-reference yet, the slot's
`evolves_from` is made present exactly when field 3 is non-blank (not all
whitespace), in which case its `from_id` is the decoded field and every
other sub-field is default; and the later `set_evolutions` pass keeps a
`none` slot at `none` and, on a present back-reference, preserves the
established `from_id` while filling the remaining sub-fields from the
evolution table. -/
theorem c9_evolves_from_materialization :
    (∀ (st : List Species) (r : StringRecord) (st2 : List Species)
      (id : Nat) (f3 : String) (s0 : Species),
      speciesLoad st r = .ok st2 →
      from_field SpeciesId.dec r 0 = .ok id →
      get_field r 3 = .ok f3 →
      st[id]? = some s0 → s0.evolves_from = none →
      ∃ s2, st2[id]? = some s2
        ∧ (s2.evolves_from.isSome = true ↔ allWhitespace f3 = false)
        ∧ (∀ from_id,
          from_field (decOptNat parseU16 SpeciesId.from_veekun) r 3 =
            .ok (some from_id) →
          s2.evolves_from =
            some ({ EvolvesFrom.default with from_id := from_id })))
    ∧ (∀ (t : List Species) (evo : Nat → Option EvolvesFrom)
      (t2 : List Species) (i : Nat) (s : Species),
      SpeciesTable.set_evolutions t evo = some t2 → t[i]? = some s →
      (s.evolves_from = none → t2[i]? = some s)
      ∧ (∀ e v, s.evolves_from = some e → evo i = some v →
          t2[i]? = some ({ s with
            evolves_from :=
              some ({ v with from_id := e.from_id }) }))) := by
  constructor
  · intro st r st2 id f3 s0 h h0 hget hs0 hnone
    obtain ⟨id2, identifier, generation, gender_rate, v3,
      h02, h1, h2, h8, h3, hcase⟩ := speciesLoad_inv h
    rw [h02] at h0
    simp only [Except.ok.injEq] at h0
    subst h0
    obtain ⟨f3b, hgetb, hdec⟩ := from_field_ok_inv h3
    rw [hget] at hgetb
    simp only [Except.ok.injEq] at hgetb
    subst hgetb
    rcases hcase with ⟨from_id, hv3, hst2⟩ | ⟨hv3, hst2⟩
    · subst hv3
      subst hst2
      refine ⟨⟨id2, to_pascal_case identifier, generation, gender_rate,
        some ({ EvolvesFrom.default with from_id := from_id })⟩,
        ?_, ?_, ?_⟩
      · rw [updateAt_getElem_self, updateAt_getElem_self, hs0]
        rfl
      · have hws : allWhitespace f3 = false := by
          by_cases hcase2 : allWhitespace f3 = true
          · rw [decOptNat_blank hcase2 none] at hdec
            simp at hdec
          · simpa using hcase2
        simp [hws]
      · intro from_id2 hsome
        rw [h3] at hsome
        simp only [Except.ok.injEq, Option.some.injEq] at hsome
        subst hsome
        rfl
    · subst hv3
      subst hst2
      refine ⟨⟨id2, to_pascal_case identifier, generation, gender_rate,
        s0.evolves_from⟩, ?_, ?_, ?_⟩
      · rw [updateAt_getElem_self, hs0]
        rfl
      · have hws := decOptNat_ok_none_ws hdec
        simp [hnone, hws]
      · intro from_id hsome
        rw [h3] at hsome
        simp at hsome
  · intro t evo t2 i s h hi
    have := set_evolutions_go_getElem evo t 0 i t2 s h hi
    rw [Nat.zero_add] at this
    exact this

set_option maxRecDepth 100000 in
/-- Witness for C9: a row with evolves-from field `"1"` materializes the
back-reference with `from_id` 0, and `set_evolutions` preserves a
`from_id` of 5 while copying the level from the evolution table. -/
theorem c9_witness :
    (∃ st2 s2, speciesLoad SpeciesTable.default
        ⟨["2", "ivysaur", "1", "1", "", "", "", "", "0"], none⟩ =
        .ok st2 ∧ st2[1]? = some s2 ∧
        s2.evolves_from = some ({ EvolvesFrom.default with from_id := 0 }))
    ∧ (∃ t2, SpeciesTable.set_evolutions
        [{ Species.default with
            evolves_from := some ({ EvolvesFrom.default with from_id := 5 }) }]
        (fun _ => some ({ EvolvesFrom.default with level := 16 })) =
        some t2 ∧
        t2[0]?.map Species.evolves_from =
          some (some ({ EvolvesFrom.default with from_id := 5, level := 16 }))) := by
  constructor
  · obtain ⟨s2, hs2, _, hsome⟩ :=
      c9_evolves_from_materialization.1 SpeciesTable.default
        ⟨["2", "ivysaur", "1", "1", "", "", "", "", "0"], none⟩
        _ 1 "1" Species.default rfl rfl rfl rfl rfl
    exact ⟨_, s2, rfl, hs2, hsome 0 rfl⟩
  · have h :=
      (c9_evolves_from_materialization.2
        [{ Species.default with
            evolves_from := some ({ EvolvesFrom.default with from_id := 5 }) }]
        (fun _ => some ({ EvolvesFrom.default with level := 16 }))
        _ 0
        { Species.default with
            evolves_from := some ({ EvolvesFrom.default with from_id := 5 }) }
        rfl rfl).2
        ({ EvolvesFrom.default with from_id := 5 })
        ({ EvolvesFrom.default with level := 16 }) rfl rfl
    exact ⟨_, rfl, by rw [h]; rfl⟩

/-- C1: evaluating the identifier projections at raw value 0.
`ItemId::from_veekun 0` is absent as the spec requires, but
`PokemonId::from_veekun 0` is `some 0` — a successfully decoded in-range
identifier (the same one raw value 1 decodes to), not an absent result. -/
theorem c1_zero_sentinel_eval :
    PokemonId.from_veekun 0 = some 0 ∧ 0 < POKEMON_COUNT ∧
      PokemonId.from_veekun 1 = some 0 ∧ ItemId.from_veekun 0 = none := by
  refine ⟨rfl, by decide, rfl, rfl⟩

end Vdex
